import Mathlib

/-!
Order poller: sent-ledger and poll cycle

A shallow embedding of `src/src/runner.js` (the sent-id ledger, `pollOnce`, the
HTTP handlers that touch the ledger) and of `src/actions/forward-order.js`
(`main`), followed by the properties of the poll cycle.

Conventions of the embedding

* A JavaScript value is a `JVal`: the JSON values plus `undefined`.  A number
  is kept as the text `String(n)` gives for it (`101`, `1.5`, `1e+21`), which
  determines the number up to the sign of zero; the program reads numbers only
  through `String`, `=== 200` and truthiness.
* A JavaScript `Set` of strings is the list of its elements in insertion order.
* An exception is the `Except.error` of its message; a function that mutates
  module state returns the new state next to its result, so the state reached
  when an exception escapes is still visible.
* The durable file is modelled by what `fs.readFileSync` followed by
  `JSON.parse` makes of it (`FileState`); `JSON.parse (JSON.stringify v)` is `v`.
* The network and the file system are a world `W` threaded through the calls.
-/

set_option autoImplicit false

/-! ## JavaScript values -/

/-- JavaScript values that occur in this program: JSON values and `undefined`.
The number `n` is `num t` for `t` the text of `String(n)`: 101 is `num "101"`,
1e21 is `num "1e+21"`, one half is `num "0.5"`.  A text that is the `String` of
no number stands for no value of the program; what is proved of every `JVal`
holds of the values that do occur. -/
inductive JVal where
  | undefined
  | null
  | bool (b : Bool)
  | num (text : String)
  | str (s : String)
  | arr (xs : List JVal)
  | obj (kvs : List (String × JVal))

namespace JVal

/-- Own property lookup in the property list of an object. -/
def lookup (k : String) : List (String × JVal) → Option JVal
  | [] => none
  | (k', v) :: rest => if k' = k then some v else lookup k rest

/-- The values `undefined` and `null`. -/
def isNullish : JVal → Bool
  | undefined => true
  | null => true
  | _ => false

/-- Property read `v[k]` on a value that is not nullish, for a name `k` that no
built-in prototype defines (every name this program reads is such a name):
the own property of an object, `undefined` otherwise. -/
def field (v : JVal) (k : String) : JVal :=
  match v with
  | obj kvs => (lookup k kvs).getD undefined
  | _ => undefined

/-- Property read `v.k`: a `TypeError` on `undefined` and `null`, with the
message of the engine. -/
def getProp (v : JVal) (k : String) : Except String JVal :=
  if isNullish v then .error ("Cannot read properties of " ++
    (match v with | null => "null" | _ => "undefined") ++ " (reading '" ++ k ++ "')")
  else .ok (field v k)

/-- Optional chaining `v?.k`. -/
def optProp (v : JVal) (k : String) : JVal :=
  if isNullish v then undefined else field v k

/-- JavaScript truthiness (`ToBoolean`): the falsy numbers are the zeros, whose
text is `0`, and `NaN`. -/
def truthy : JVal → Bool
  | undefined => false
  | null => false
  | bool b => b
  | num t => decide (t ≠ "0" ∧ t ≠ "NaN")
  | str s => decide (s ≠ "")
  | arr _ => true
  | obj _ => true

/-- The test `typeof v === "object"`. -/
def typeofObject : JVal → Bool
  | null => true
  | arr _ => true
  | obj _ => true
  | _ => false

/-- The test `Array.isArray(v)`. -/
def isArray : JVal → Bool
  | arr _ => true
  | _ => false

/-- The test `v === 200`: 200 is the number whose text is `200`. -/
def is200 : JVal → Bool
  | num t => decide (t = "200")
  | _ => false

mutual
/-- The conversion `String(v)`.  An object converts through
`Object.prototype.toString` unless it has an own property `toString`, which (in
a value that came from JSON) is not callable and leaves no way to a primitive. -/
def toStr : JVal → Except String String
  | undefined => .ok "undefined"
  | null => .ok "null"
  | bool true => .ok "true"
  | bool false => .ok "false"
  | num t => .ok t
  | str s => .ok s
  | arr xs => joinStr xs
  | obj kvs =>
    if (lookup "toString" kvs).isSome then
      .error "Cannot convert object to primitive value"
    else .ok "[object Object]"
/-- The conversion of an array, `xs.join(",")`: nullish elements give the empty
text. -/
def joinStr : List JVal → Except String String
  | [] => .ok ""
  | x :: rest =>
    match (if isNullish x then .ok "" else toStr x) with
    | .error e => .error e
    | .ok s =>
      match rest with
      | [] => .ok s
      | _ :: _ =>
        match joinStr rest with
        | .error e => .error e
        | .ok t => .ok (s ++ "," ++ t)
end

/-- The array method call `ids.map(String)`. -/
def mapStr : List JVal → Except String (List String)
  | [] => .ok []
  | x :: rest =>
    match toStr x with
    | .error e => .error e
    | .ok s =>
      match mapStr rest with
      | .error e => .error e
      | .ok ss => .ok (s :: ss)

end JVal

open JVal

/-! ## The set of sent identifiers -/

/-- The method `Set.prototype.add`. -/
def setAdd (set : List String) (id : String) : List String :=
  if id ∈ set then set else set ++ [id]

/-- The constructor `new Set(iterable)`. -/
def newSet (xs : List String) : List String :=
  xs.foldl setAdd []

/-! ## Durable file and world -/

/-- The file `data/sent.json`, by what reading and parsing it gives. -/
inductive FileState where
  /-- reading throws: `fs.readFileSync` finds no file, or may not read it -/
  | missing
  /-- parsing throws: the content is not JSON text -/
  | garbage
  /-- the content is the JSON text of `parsed` -/
  | json (parsed : JVal)

/-- What `fs.mkdirSync` followed by `fs.writeFileSync` did. -/
inductive WriteOutcome where
  /-- both returned: the file holds the new content -/
  | done
  /-- one of them threw `message`; the file is left as `left` -/
  | failed (message : String) (left : FileState)

/-- The outside of the process: the action loader with the network behind it,
and the file system. -/
structure Env (W : Type) where
  /-- the call `invokeAction(actionPath, params)`: the value `main` resolves to, or the
  error thrown (import failure, missing `main`, `main` rejecting) -/
  invokeAction : W → JVal → Except String JVal × W
  /-- the directory creation and the write of `saveSentIds`, given the file
  as it is and the value whose text is written -/
  writeFile : W → FileState → JVal → WriteOutcome × W

/-- Constants of `runner.js` read from the environment. -/
structure Config where
  COMMERCE_BASE_URL : Option String
  COMMERCE_ACCESS_TOKEN : Option String
  TARGET_URL : String

/-- Module state of `runner.js` (`sentOrderIds`), the durable file, the world,
and the record of the `invokeAction` calls made so far with what each gave. -/
structure St (W : Type) where
  sent : List String
  file : FileState
  world : W
  calls : List (JVal × Except String JVal)

/-! ## runner.js -/

/-- The try block of `loadSentIds`. -/
def loadSentIdsTry (file : FileState) : Except String (List String) :=
  match file with
  | .missing => .error "ENOENT: no such file or directory"
  | .garbage => .error "SyntaxError: not valid JSON"
  | .json parsed =>
    match getProp parsed "sent_order_ids" with
    | .error e => .error e
    | .ok f =>
      let ids := match f with
        | .arr xs => xs
        | _ => []
      match mapStr ids with
      | .error e => .error e
      | .ok strs => .ok (newSet strs)

/-- The function `loadSentIds`: the try block, and the empty set from the catch. -/
def loadSentIds (file : FileState) : List String :=
  match loadSentIdsTry file with
  | .ok set => set
  | .error _ => []

/-- The `payload` of `saveSentIds`. -/
def sentPayload (set : List String) : JVal :=
  .obj [("sent_order_ids", .arr (set.map .str))]

/-- The function `saveSentIds`. -/
def saveSentIds {W : Type} (E : Env W) (set : List String) (s : St W) :
    Except String Unit × St W :=
  let payload := sentPayload set
  match E.writeFile s.world s.file payload with
  | (.done, w) => (.ok (), { s with file := .json payload, world := w })
  | (.failed msg left, w) => (.error msg, { s with file := left, world := w })

/-- The test `!x` on an environment variable. -/
def envMissing : Option String → Bool
  | none => true
  | some v => decide (v = "")

/-- The function `requireEnv`. -/
def requireEnv (cfg : Config) : Except String Unit :=
  if envMissing cfg.COMMERCE_BASE_URL then .error "Missing COMMERCE_BASE_URL in .env"
  else if envMissing cfg.COMMERCE_ACCESS_TOKEN then .error "Missing COMMERCE_ACCESS_TOKEN in .env"
  else .ok ()

/-- The `params` object `{ order, TARGET_URL }` handed to the action. -/
def actionParams (cfg : Config) (order : JVal) : JVal :=
  .obj [("order", order), ("TARGET_URL", .str cfg.TARGET_URL)]

/-- The expression `out?.body || out`. -/
def resultOf (out : JVal) : JVal :=
  if truthy (optProp out "body") then optProp out "body" else out

/-- The test `out?.statusCode === 200`. -/
def delivered (out : JVal) : Bool :=
  is200 (optProp out "statusCode")

/-- The expression `String(order.entity_id)`. -/
def entityId (order : JVal) : Except String String :=
  match getProp order "entity_id" with
  | .error e => .error e
  | .ok v => toStr v

/-- Body of the loop of `pollOnce` for one order: `none` when the order is
skipped by `continue`, `some r` when `r` is pushed on `results`. -/
def pollBody {W : Type} (E : Env W) (cfg : Config) (order : JVal) (s : St W) :
    Except String (Option JVal) × St W :=
  match entityId order with
  | .error e => (.error e, s)
  | .ok id =>
    if id ∈ s.sent then (.ok none, s)
    else
      match E.invokeAction s.world (actionParams cfg order) with
      | (.error e, w) =>
        (.error e, { s with world := w, calls := s.calls ++ [(order, .error e)] })
      | (.ok out, w) =>
        let s1 : St W := { s with world := w, calls := s.calls ++ [(order, .ok out)] }
        if delivered out then
          let s2 : St W := { s1 with sent := setAdd s1.sent id }
          match saveSentIds E s2.sent s2 with
          | (.error e, s3) => (.error e, s3)
          | (.ok (), s3) => (.ok (some (resultOf out)), s3)
        else (.ok (some (resultOf out)), s1)

/-- The loop `for (const order of orders)` of `pollOnce`, from the `results`
collected so far. -/
def pollLoop {W : Type} (E : Env W) (cfg : Config) :
    List JVal → St W → List JVal → Except String (List JVal) × St W
  | [], s, results => (.ok results, s)
  | order :: rest, s, results =>
    match pollBody E cfg order s with
    | (.error e, s1) => (.error e, s1)
    | (.ok none, s1) => pollLoop E cfg rest s1 results
    | (.ok (some r), s1) => pollLoop E cfg rest s1 (results ++ [r])

/-- The function `pollOnce`; `fetched` is what `await fetchRecentOrders(...)`
gives: the page of orders, or the error it throws. -/
def pollOnce {W : Type} (E : Env W) (cfg : Config) (fetched : Except String (List JVal))
    (s : St W) : Except String (List JVal) × St W :=
  match requireEnv cfg with
  | .error e => (.error e, s)
  | .ok () =>
    match fetched with
    | .error e => (.error e, s)
    | .ok orders => pollLoop E cfg orders s []

/-- An HTTP response: status and JSON body. -/
structure HttpResponse where
  status : JVal
  body : JVal

/-- The handler of `POST /admin/sent/reset`; an error is the exception that
escapes the handler. -/
def adminSentReset {W : Type} (E : Env W) (s : St W) : Except String HttpResponse × St W :=
  let s1 : St W := { s with sent := [] }
  match saveSentIds E s1.sent s1 with
  | (.error e, s2) => (.error e, s2)
  | (.ok (), s2) =>
    (.ok ⟨.num "200", .obj [("ok", .bool true), ("message", .str "sent_order_ids cleared")]⟩, s2)

/-- The handler of `GET /admin/sent`. -/
def adminSent {W : Type} (s : St W) : HttpResponse × St W :=
  (⟨.num "200", .obj [("ok", .bool true), ("sent_order_ids", .arr (s.sent.map .str))]⟩, s)

/-- The handler of `POST /run/poll-once`; `results.length`, the length of an
array, has its decimal digits for text. -/
def runPollOnce {W : Type} (E : Env W) (cfg : Config) (fetched : Except String (List JVal))
    (s : St W) : HttpResponse × St W :=
  match pollOnce E cfg fetched s with
  | (.ok results, s1) =>
    (⟨.num "200", .obj [("ok", .bool true), ("forwarded_attempts", .num (toString results.length)),
      ("results", .arr results)]⟩, s1)
  | (.error e, s1) => (⟨.num "500", .obj [("ok", .bool false), ("error", .str e)]⟩, s1)

/-- The try block of the handler of `POST /run/forward/:orderId`; `fetched` is
what `await fetchOrderById(...)` gives. -/
def runForwardTry {W : Type} (E : Env W) (cfg : Config) (fetched : Except String JVal)
    (s : St W) : Except String HttpResponse × St W :=
  match requireEnv cfg with
  | .error e => (.error e, s)
  | .ok () =>
    match fetched with
    | .error e => (.error e, s)
    | .ok order =>
      match E.invokeAction s.world (actionParams cfg order) with
      | (.error e, w) =>
        (.error e, { s with world := w, calls := s.calls ++ [(order, .error e)] })
      | (.ok out, w) =>
        let s1 : St W := { s with world := w, calls := s.calls ++ [(order, .ok out)] }
        let respond (t : St W) : Except String HttpResponse × St W :=
          match getProp out "statusCode", getProp out "body" with
          | .error e, _ => (.error e, t)
          | _, .error e => (.error e, t)
          | .ok code, .ok body =>
            (.ok ⟨if truthy code then code else .num "200", if truthy body then body else out⟩, t)
        if delivered out then
          match entityId order with
          | .error e => (.error e, s1)
          | .ok id =>
            let s2 : St W := { s1 with sent := setAdd s1.sent id }
            match saveSentIds E s2.sent s2 with
            | (.error e, s3) => (.error e, s3)
            | (.ok (), s3) => respond s3
        else respond s1

/-- The handler of `POST /run/forward/:orderId`: the try block, and the 500
response of the catch. -/
def runForward {W : Type} (E : Env W) (cfg : Config) (fetched : Except String JVal)
    (s : St W) : HttpResponse × St W :=
  match runForwardTry E cfg fetched s with
  | (.ok r, s1) => (r, s1)
  | (.error e, s1) => (⟨.num "500", .obj [("ok", .bool false), ("error", .str e)]⟩, s1)

/-- Process start: `const sentOrderIds = loadSentIds()`. -/
def boot {W : Type} (file : FileState) (w : W) : St W :=
  { sent := loadSentIds file, file := file, world := w, calls := [] }

/-! ## actions/forward-order.js -/

/-- The `Response` a fetch resolves to: `res.ok`, `res.status`, and what
`await res.json()` gives. -/
structure Response where
  ok : Bool
  status : JVal
  json : Except String JVal

/-- What `await fetch(...)` gives: an exception with `e.message`, or a response. -/
inductive FetchOutcome where
  | rejected (message : String)
  | resolved (res : Response)

namespace ForwardOrder

/-- The `payload` of `main`. -/
def forwardPayload (order : JVal) : JVal :=
  .obj [("source", .str "mageos"),
    ("order_id", field order "entity_id"),
    ("increment_id", field order "increment_id"),
    ("status", field order "status"),
    ("grand_total", field order "grand_total"),
    ("customer_email", field order "customer_email"),
    ("created_at", field order "created_at"),
    ("raw", order)]

/-- The action `main(params)`; `fetch w url payload` is the POST of the JSON
text of `payload` to `url`. -/
def main {W : Type} (fetch : W → JVal → JVal → FetchOutcome × W) (params : JVal) (w : W) :
    Except String JVal × W :=
  let params := match params with
    | .undefined => JVal.obj []
    | p => p
  match getProp params "order", getProp params "TARGET_URL" with
  | .error e, _ => (.error e, w)
  | _, .error e => (.error e, w)
  | .ok order, .ok targetUrl =>
    if !truthy order || !typeofObject order then
      (.ok (.obj [("statusCode", .num "400"),
        ("body", .obj [("ok", .bool false), ("error", .str "Missing params.order")])]), w)
    else if !truthy targetUrl then
      (.ok (.obj [("statusCode", .num "400"),
        ("body", .obj [("ok", .bool false), ("error", .str "Missing TARGET_URL")])]), w)
    else
      let payload := forwardPayload order
      match fetch w targetUrl payload with
      | (.rejected message, w1) =>
        (.ok (.obj [("statusCode", .num "502"),
          ("body", .obj [("ok", .bool false),
            ("error", .str ("Target unreachable: " ++ message))])]), w1)
      | (.resolved res, w1) =>
        let data := match res.json with
          | .ok d => d
          | .error _ => JVal.obj []
        (.ok (.obj [("statusCode", .num (if res.ok then "200" else "502")),
          ("body", .obj [("ok", .bool res.ok),
            ("forwarded", .obj [("order_id", field payload "order_id"),
              ("increment_id", field payload "increment_id")]),
            ("target_status", res.status),
            ("target_response", data)])]), w1)

end ForwardOrder

/-- The environment in which `invokeAction` loads `forward-order.js` and runs
its `main` over the network `fetch`. -/
def actionEnv {W : Type} (fetch : W → JVal → JVal → FetchOutcome × W)
    (writeFile : W → FileState → JVal → WriteOutcome × W) : Env W :=
  { invokeAction := fun w params => ForwardOrder.main fetch params w, writeFile := writeFile }

/-! ## Vocabulary of the statements -/

/-- The state after a forward call that gave `r`. -/
def afterCall {W : Type} (s : St W) (w : W) (order : JVal) (r : Except String JVal) : St W :=
  { s with world := w, calls := s.calls ++ [(order, r)] }

/-- What one run of the loop over `page` from `s` with `acc` collected, ending
in `s'` with result `r`, did: `new` are the forward calls it made. -/
structure LoopFacts {W : Type} (page : List JVal) (s : St W) (acc : List JVal)
    (r : Except String (List JVal)) (s' : St W) (new : List (JVal × Except String JVal)) :
    Prop where
  calls_eq : s'.calls = s.calls ++ new
  sent_iff : ∀ x, x ∈ s'.sent ↔ x ∈ s.sent ∨
    ∃ o out, (o, Except.ok out) ∈ new ∧ delivered out = true ∧ entityId o = .ok x
  fresh : ∀ c ∈ new, ∃ id, entityId c.1 = .ok id ∧ id ∉ s.sent
  sublist : (new.map Prod.fst).Sublist page
  results : ∀ res, r = .ok res →
    res = acc ++ new.filterMap (fun c => c.2.toOption.map resultOf)
  all_ok : ∀ res, r = .ok res → ∀ c ∈ new, ∃ out, c.2 = .ok out
  cover : ∀ res, r = .ok res → ∀ o ∈ page, ∃ id, entityId o = .ok id ∧
    (id ∈ s'.sent ∨ ∃ out, (o, Except.ok out) ∈ new ∧ delivered out = false)

/-- The forward calls made between state `s` and the later state `s'`. -/
def callsSince {W : Type} (s s' : St W) : List (JVal × Except String JVal) :=
  s'.calls.drop s.calls.length

/-- The durable file holds the in-memory set: a restart loads the same members. -/
def Synced {W : Type} (s : St W) : Prop :=
  s.sent.Nodup ∧ loadSentIds s.file = s.sent

/-- The forwarder gives an outcome for every order (it never throws). -/
def ForwardReturns {W : Type} (E : Env W) (cfg : Config) : Prop :=
  ∀ w order, ∃ out w', E.invokeAction w (actionParams cfg order) = (.ok out, w')

/-- No write of the ledger file fails. -/
def WritesSucceed {W : Type} (E : Env W) : Prop :=
  ∀ w f v, ∃ w', E.writeFile w f v = (.done, w')

/-- Operations of the running process on the ledger. -/
inductive Op where
  /-- the timer or `POST /run/poll-once`, with what the order source gives -/
  | poll (fetched : Except String (List JVal))
  /-- the manual forward `POST /run/forward/:orderId`, with what the fetch by id gives -/
  | forward (fetched : Except String JVal)
  /-- the inspection `GET /admin/sent` -/
  | inspect
  /-- the administrative `POST /admin/sent/reset` -/
  | reset

/-- The state after an operation. -/
def Op.run {W : Type} (E : Env W) (cfg : Config) : Op → St W → St W
  | .poll fetched, s => (runPollOnce E cfg fetched s).2
  | .forward fetched, s => (runForward E cfg fetched s).2
  | .inspect, s => (adminSent s).2
  | .reset, s => (adminSentReset E s).2

/-- The operation is the administrative reset. -/
def Op.isReset : Op → Bool
  | .reset => true
  | _ => false

/-! ## Sample data -/

/-- A configuration with both credentials set. -/
def sampleCfg : Config :=
  ⟨some "https://shop.example/rest/default/V1", some "token",
    "http://localhost:3000/target/orders"⟩

/-- An order record with the given `entity_id`. -/
def orderWith (id : JVal) : JVal :=
  .obj [("entity_id", id), ("status", .str "pending")]

/-- A file system whose writes succeed. -/
def diskOk (w : Unit) (_ : FileState) (_ : JVal) : WriteOutcome × Unit := (.done, w)

/-- A file system that is full: the write throws and leaves the file empty. -/
def diskFull (w : Unit) (_ : FileState) (_ : JVal) : WriteOutcome × Unit :=
  (.failed "ENOSPC: no space left on device, write" .garbage, w)

/-- A target that accepts order 101 and answers 422 to anything else. -/
def targetAccepts101 (w : Unit) (_url : JVal) (payload : JVal) : FetchOutcome × Unit :=
  match field payload "order_id" with
  | .num "101" => (.resolved ⟨true, .num "200", .ok (.obj [("ok", .bool true)])⟩, w)
  | _ => (.resolved ⟨false, .num "422", .error "SyntaxError: Unexpected token"⟩, w)

/-- A target that accepts every order. -/
def targetAcceptsAll (w : Unit) (_url : JVal) (_payload : JVal) : FetchOutcome × Unit :=
  (.resolved ⟨true, .num "200", .ok (.obj [("ok", .bool true)])⟩, w)

/-- A target that cannot be reached for order 3 and accepts the others. -/
def targetDownFor3 (w : Unit) (_url : JVal) (payload : JVal) : FetchOutcome × Unit :=
  match field payload "order_id" with
  | .num "3" => (.rejected "fetch failed", w)
  | _ => (.resolved ⟨true, .num "200", .ok (.obj [("ok", .bool true)])⟩, w)

/-- The page of the scenario: orders 101 and 102. -/
def sampleOrders : List JVal := [orderWith (.num "101"), orderWith (.num "102")]

/-- A page of five orders, 1 to 5. -/
def fiveOrders : List JVal :=
  [orderWith (.num "1"), orderWith (.num "2"), orderWith (.num "3"), orderWith (.num "4"),
    orderWith (.num "5")]

/-- The forward action against the target that accepts order 101 only. -/
def envAccepts101 : Env Unit := actionEnv targetAccepts101 diskOk

/-- The forward action against the target that accepts every order. -/
def envAcceptsAll : Env Unit := actionEnv targetAcceptsAll diskOk

/-- The forward action against an accepting target, on a full disk. -/
def envDiskFull : Env Unit := actionEnv targetAcceptsAll diskFull

/-- The forward action against the target that is down for order 3. -/
def envDownFor3 : Env Unit := actionEnv targetDownFor3 diskOk

/-- The outcome of `main` when the target accepted the order `id`. -/
def acceptedOut (id : JVal) : JVal :=
  .obj [("statusCode", .num "200"),
    ("body", .obj [("ok", .bool true),
      ("forwarded", .obj [("order_id", id), ("increment_id", .undefined)]),
      ("target_status", .num "200"),
      ("target_response", .obj [("ok", .bool true)])])]

/-- The outcome of `main` when the target answered 422 to the order `id`, with
a body that is not JSON. -/
def rejectedOut (id : JVal) : JVal :=
  .obj [("statusCode", .num "502"),
    ("body", .obj [("ok", .bool false),
      ("forwarded", .obj [("order_id", id), ("increment_id", .undefined)]),
      ("target_status", .num "422"),
      ("target_response", .obj [])])]

/-- The outcome of `main` when the request to the target threw. -/
def unreachableOut : JVal :=
  .obj [("statusCode", .num "502"),
    ("body", .obj [("ok", .bool false),
      ("error", .str "Target unreachable: fetch failed")])]

/-- A ledger file listing the identifiers `ids`. -/
def fileListing (ids : List JVal) : FileState :=
  .json (.obj [("sent_order_ids", .arr ids)])

/-! ## Properties of the loop body -/

theorem pollBody_cases {W : Type} (E : Env W) (cfg : Config) (o : JVal) (s : St W) :
    (∃ e, entityId o = .error e ∧ pollBody E cfg o s = (.error e, s)) ∨
    (∃ id, entityId o = .ok id ∧ id ∈ s.sent ∧ pollBody E cfg o s = (.ok none, s)) ∨
    (∃ id e w, entityId o = .ok id ∧ id ∉ s.sent ∧
      E.invokeAction s.world (actionParams cfg o) = (.error e, w) ∧
      pollBody E cfg o s = (.error e, afterCall s w o (.error e))) ∨
    (∃ id out w, entityId o = .ok id ∧ id ∉ s.sent ∧
      E.invokeAction s.world (actionParams cfg o) = (.ok out, w) ∧ delivered out = false ∧
      pollBody E cfg o s = (.ok (some (resultOf out)), afterCall s w o (.ok out))) ∨
    (∃ id out w w2, entityId o = .ok id ∧ id ∉ s.sent ∧
      E.invokeAction s.world (actionParams cfg o) = (.ok out, w) ∧ delivered out = true ∧
      E.writeFile w s.file (sentPayload (setAdd s.sent id)) = (.done, w2) ∧
      pollBody E cfg o s = (.ok (some (resultOf out)),
        { sent := setAdd s.sent id, file := .json (sentPayload (setAdd s.sent id)),
          world := w2, calls := s.calls ++ [(o, .ok out)] })) ∨
    (∃ id out w msg left w2, entityId o = .ok id ∧ id ∉ s.sent ∧
      E.invokeAction s.world (actionParams cfg o) = (.ok out, w) ∧ delivered out = true ∧
      E.writeFile w s.file (sentPayload (setAdd s.sent id)) = (.failed msg left, w2) ∧
      pollBody E cfg o s = (.error msg,
        { sent := setAdd s.sent id, file := left, world := w2,
          calls := s.calls ++ [(o, .ok out)] })) := by
  unfold pollBody
  cases hid : entityId o with
  | error e => exact Or.inl ⟨e, rfl, rfl⟩
  | ok id =>
    by_cases hmem : id ∈ s.sent
    · exact Or.inr (Or.inl ⟨id, rfl, hmem, by simp [hmem]⟩)
    · rcases hinv : E.invokeAction s.world (actionParams cfg o) with ⟨r, w⟩
      cases r with
      | error e =>
        exact Or.inr (Or.inr (Or.inl ⟨id, e, w, rfl, hmem, rfl, by simp [hmem, hinv, afterCall]⟩))
      | ok out =>
        cases hd : delivered out with
        | false =>
          exact Or.inr (Or.inr (Or.inr (Or.inl
            ⟨id, out, w, rfl, hmem, rfl, hd, by simp [hmem, hinv, hd, afterCall]⟩)))
        | true =>
          rcases hw : E.writeFile w s.file (sentPayload (setAdd s.sent id)) with ⟨wo, w2⟩
          cases wo with
          | done =>
            exact Or.inr (Or.inr (Or.inr (Or.inr (Or.inl
              ⟨id, out, w, w2, rfl, hmem, rfl, hd, hw,
                by simp [hmem, hinv, hd, saveSentIds, hw]⟩))))
          | failed msg left =>
            exact Or.inr (Or.inr (Or.inr (Or.inr (Or.inr
              ⟨id, out, w, msg, left, w2, rfl, hmem, rfl, hd, hw,
                by simp [hmem, hinv, hd, saveSentIds, hw]⟩))))

theorem mem_setAdd (set : List String) (id x : String) :
    x ∈ setAdd set id ↔ x ∈ set ∨ x = id := by
  unfold setAdd
  split
  · constructor
    · intro h; exact Or.inl h
    · rintro (h | h)
      · exact h
      · subst h; assumption
  · simp

theorem pollLoop_nil {W : Type} (E : Env W) (cfg : Config) (s : St W) (acc : List JVal) :
    pollLoop E cfg [] s acc = (.ok acc, s) := rfl

theorem pollLoop_cons {W : Type} (E : Env W) (cfg : Config) (o : JVal) (rest : List JVal)
    (s : St W) (acc : List JVal) :
    pollLoop E cfg (o :: rest) s acc =
      match pollBody E cfg o s with
      | (.error e, s1) => (.error e, s1)
      | (.ok none, s1) => pollLoop E cfg rest s1 acc
      | (.ok (some r), s1) => pollLoop E cfg rest s1 (acc ++ [r]) := rfl

theorem pollLoop_facts {W : Type} (E : Env W) (cfg : Config) (page : List JVal) :
    ∀ (s : St W) (acc : List JVal) (r : Except String (List JVal)) (s' : St W),
      pollLoop E cfg page s acc = (r, s') → ∃ new, LoopFacts page s acc r s' new := by
  induction page with
  | nil =>
    intro s acc r s' h
    rw [pollLoop_nil] at h
    obtain ⟨rfl, rfl⟩ := Prod.mk.inj h
    refine ⟨[], ?_, ?_, ?_, ?_, ?_, ?_, ?_⟩ <;> simp
  | cons o rest ih =>
    intro s acc r s' h
    rw [pollLoop_cons] at h
    rcases pollBody_cases E cfg o s with ⟨e, hid, hb⟩ | ⟨id, hid, hm, hb⟩ |
      ⟨id, e, w, hid, hm, hinv, hb⟩ | ⟨id, out, w, hid, hm, hinv, hd, hb⟩ |
      ⟨id, out, w, w2, hid, hm, hinv, hd, hw, hb⟩ |
      ⟨id, out, w, msg, left, w2, hid, hm, hinv, hd, hw, hb⟩
    · rw [hb] at h
      obtain ⟨rfl, rfl⟩ := Prod.mk.inj h
      refine ⟨[], ?_, ?_, ?_, ?_, ?_, ?_, ?_⟩ <;> simp
    · rw [hb] at h
      obtain ⟨new, hf⟩ := ih s acc r s' h
      refine ⟨new, hf.calls_eq, hf.sent_iff, hf.fresh, hf.sublist.trans (List.sublist_cons_self _ _),
        hf.results, hf.all_ok, ?_⟩
      intro res hr p hp
      rcases List.mem_cons.mp hp with rfl | hp
      · exact ⟨id, hid, Or.inl ((hf.sent_iff id).mpr (Or.inl hm))⟩
      · exact hf.cover res hr p hp
    · rw [hb] at h
      obtain ⟨rfl, rfl⟩ := Prod.mk.inj h
      refine ⟨[(o, .error e)], ?_, ?_, ?_, ?_, ?_, ?_, ?_⟩
      · simp [afterCall]
      · intro x; simp [afterCall]
      · intro c hc
        rw [List.mem_singleton] at hc
        subst hc
        exact ⟨id, hid, hm⟩
      · simp
      · intro res hr; cases hr
      · intro res hr; cases hr
      · intro res hr; cases hr
    · rw [hb] at h
      obtain ⟨new, hf⟩ := ih _ _ r s' h
      refine ⟨(o, .ok out) :: new, ?_, ?_, ?_, ?_, ?_, ?_, ?_⟩
      · rw [hf.calls_eq]; simp [afterCall]
      · intro x
        rw [hf.sent_iff x]
        constructor
        · rintro (hx | ⟨p, q, hpq, hq, hp⟩)
          · exact Or.inl hx
          · exact Or.inr ⟨p, q, List.mem_cons_of_mem _ hpq, hq, hp⟩
        · rintro (hx | ⟨p, q, hpq, hq, hp⟩)
          · exact Or.inl hx
          · rcases List.mem_cons.mp hpq with heq | hpq
            · obtain ⟨rfl, hq2⟩ := Prod.mk.inj heq
              cases hq2
              rw [hd] at hq
              cases hq
            · exact Or.inr ⟨p, q, hpq, hq, hp⟩
      · intro c hc
        rcases List.mem_cons.mp hc with rfl | hc
        · exact ⟨id, hid, hm⟩
        · exact hf.fresh c hc
      · simpa using hf.sublist
      · intro res hr
        rw [hf.results res hr]
        simp [Except.toOption]
      · intro res hr c hc
        rcases List.mem_cons.mp hc with rfl | hc
        · exact ⟨out, rfl⟩
        · exact hf.all_ok res hr c hc
      · intro res hr p hp
        rcases List.mem_cons.mp hp with rfl | hp
        · exact ⟨id, hid, Or.inr ⟨out, List.mem_cons_self _ _, hd⟩⟩
        · obtain ⟨i, hi, hc⟩ := hf.cover res hr p hp
          refine ⟨i, hi, ?_⟩
          rcases hc with hc | ⟨q, hq, hqd⟩
          · exact Or.inl hc
          · exact Or.inr ⟨q, List.mem_cons_of_mem _ hq, hqd⟩
    · rw [hb] at h
      obtain ⟨new, hf⟩ := ih _ _ r s' h
      have hsent : ∀ x, x ∈ s'.sent ↔ (x ∈ s.sent ∨ x = id) ∨
          ∃ p q, (p, Except.ok q) ∈ new ∧ delivered q = true ∧ entityId p = .ok x := by
        intro x
        rw [hf.sent_iff x, mem_setAdd]
      refine ⟨(o, .ok out) :: new, ?_, ?_, ?_, ?_, ?_, ?_, ?_⟩
      · rw [hf.calls_eq]; simp
      · intro x
        rw [hsent x]
        constructor
        · rintro ((hx | hx) | ⟨p, q, hpq, hq, hp⟩)
          · exact Or.inl hx
          · subst hx
            exact Or.inr ⟨o, out, List.mem_cons_self _ _, hd, hid⟩
          · exact Or.inr ⟨p, q, List.mem_cons_of_mem _ hpq, hq, hp⟩
        · rintro (hx | ⟨p, q, hpq, hq, hp⟩)
          · exact Or.inl (Or.inl hx)
          · rcases List.mem_cons.mp hpq with heq | hpq
            · obtain ⟨rfl, _⟩ := Prod.mk.inj heq
              rw [hid] at hp
              cases hp
              exact Or.inl (Or.inr rfl)
            · exact Or.inr ⟨p, q, hpq, hq, hp⟩
      · intro c hc
        rcases List.mem_cons.mp hc with rfl | hc
        · exact ⟨id, hid, hm⟩
        · obtain ⟨i, hi, hn⟩ := hf.fresh c hc
          exact ⟨i, hi, fun hx => hn ((mem_setAdd _ _ _).mpr (Or.inl hx))⟩
      · simpa using hf.sublist
      · intro res hr
        rw [hf.results res hr]
        simp [Except.toOption]
      · intro res hr c hc
        rcases List.mem_cons.mp hc with rfl | hc
        · exact ⟨out, rfl⟩
        · exact hf.all_ok res hr c hc
      · intro res hr p hp
        rcases List.mem_cons.mp hp with rfl | hp
        · exact ⟨id, hid, Or.inl ((hsent id).mpr (Or.inl (Or.inr rfl)))⟩
        · obtain ⟨i, hi, hc⟩ := hf.cover res hr p hp
          refine ⟨i, hi, ?_⟩
          rcases hc with hc | ⟨q, hq, hqd⟩
          · exact Or.inl hc
          · exact Or.inr ⟨q, List.mem_cons_of_mem _ hq, hqd⟩
    · rw [hb] at h
      obtain ⟨rfl, rfl⟩ := Prod.mk.inj h
      refine ⟨[(o, .ok out)], ?_, ?_, ?_, ?_, ?_, ?_, ?_⟩
      · simp
      · intro x
        rw [mem_setAdd]
        constructor
        · rintro (hx | hx)
          · exact Or.inl hx
          · subst hx
            exact Or.inr ⟨o, out, List.mem_singleton.mpr rfl, hd, hid⟩
        · rintro (hx | ⟨p, q, hpq, hq, hp⟩)
          · exact Or.inl hx
          · obtain ⟨rfl, _⟩ := Prod.mk.inj (List.mem_singleton.mp hpq)
            rw [hid] at hp
            cases hp
            exact Or.inr rfl
      · intro c hc
        rw [List.mem_singleton] at hc
        subst hc
        exact ⟨id, hid, hm⟩
      · simp
      · intro res hr; cases hr
      · intro res hr; cases hr
      · intro res hr; cases hr

/-! ## Properties of the loop -/

theorem pollLoop_append {W : Type} (E : Env W) (cfg : Config) (xs ys : List JVal) :
    ∀ (s : St W) (acc : List JVal),
      pollLoop E cfg (xs ++ ys) s acc =
        match pollLoop E cfg xs s acc with
        | (.ok acc1, s1) => pollLoop E cfg ys s1 acc1
        | (.error e, s1) => (.error e, s1) := by
  induction xs with
  | nil => intro s acc; rfl
  | cons o rest ih =>
    intro s acc
    rw [List.cons_append, pollLoop_cons, pollLoop_cons]
    rcases pollBody E cfg o s with ⟨r, s1⟩
    cases r with
    | error e => rfl
    | ok v =>
      cases v with
      | none => exact ih s1 acc
      | some r => exact ih s1 (acc ++ [r])

theorem pollLoop_append_ok {W : Type} (E : Env W) (cfg : Config) (xs ys : List JVal)
    (s s1 : St W) (acc acc1 : List JVal) (h : pollLoop E cfg xs s acc = (.ok acc1, s1)) :
    pollLoop E cfg (xs ++ ys) s acc = pollLoop E cfg ys s1 acc1 := by
  rw [pollLoop_append, h]

theorem pollLoop_skip_all {W : Type} (E : Env W) (cfg : Config) (page : List JVal) (s : St W)
    (acc : List JVal) (h : ∀ o ∈ page, ∃ id, entityId o = .ok id ∧ id ∈ s.sent) :
    pollLoop E cfg page s acc = (.ok acc, s) := by
  induction page with
  | nil => rfl
  | cons o rest ih =>
    obtain ⟨id, hid, hm⟩ := h o (List.mem_cons_self _ _)
    have hb : pollBody E cfg o s = (.ok none, s) := by
      unfold pollBody
      simp [hid, hm]
    rw [pollLoop_cons, hb]
    exact ih (fun p hp => h p (List.mem_cons_of_mem _ hp))

theorem pollBody_returns {W : Type} (E : Env W) (cfg : Config) (o : JVal) (s : St W)
    (hf : ForwardReturns E cfg) (hw : WritesSucceed E) (hid : ∃ id, entityId o = .ok id) :
    ∃ v s1, pollBody E cfg o s = (.ok v, s1) := by
  obtain ⟨id0, hid0⟩ := hid
  rcases pollBody_cases E cfg o s with ⟨e, hid, _⟩ | ⟨id, _, _, hb⟩ |
    ⟨id, e, w, _, _, hinv, _⟩ | ⟨id, out, w, _, _, _, _, hb⟩ |
    ⟨id, out, w, w2, _, _, _, _, _, hb⟩ |
    ⟨id, out, w, msg, left, w2, _, _, _, _, hwr, _⟩
  · rw [hid0] at hid; cases hid
  · exact ⟨_, _, hb⟩
  · obtain ⟨out, w', h'⟩ := hf s.world o
    rw [h'] at hinv; cases hinv
  · exact ⟨_, _, hb⟩
  · exact ⟨_, _, hb⟩
  · obtain ⟨w', h'⟩ := hw w s.file (sentPayload (setAdd s.sent id))
    rw [h'] at hwr; cases hwr

theorem pollLoop_returns {W : Type} (E : Env W) (cfg : Config) (page : List JVal)
    (hf : ForwardReturns E cfg) (hw : WritesSucceed E)
    (hid : ∀ o ∈ page, ∃ id, entityId o = .ok id) :
    ∀ (s : St W) (acc : List JVal), ∃ res s', pollLoop E cfg page s acc = (.ok res, s') := by
  induction page with
  | nil => intro s acc; exact ⟨acc, s, rfl⟩
  | cons o rest ih =>
    intro s acc
    obtain ⟨v, s1, hb⟩ := pollBody_returns E cfg o s hf hw (hid o (List.mem_cons_self _ _))
    have ih' := ih (fun p hp => hid p (List.mem_cons_of_mem _ hp))
    rw [pollLoop_cons, hb]
    cases v with
    | none => exact ih' s1 acc
    | some r => exact ih' s1 (acc ++ [r])

theorem callsSince_eq {W : Type} (s s' : St W) (new : List (JVal × Except String JVal))
    (h : s'.calls = s.calls ++ new) : callsSince s s' = new := by
  unfold callsSince
  rw [h, List.drop_left]

/-! ## Properties of the set and of the ledger file -/

theorem setAdd_nodup (set : List String) (id : String) (h : set.Nodup) :
    (setAdd set id).Nodup := by
  unfold setAdd
  split
  · exact h
  · rename_i hn
    rw [List.nodup_append]
    refine ⟨h, List.nodup_singleton id, ?_⟩
    intro a ha hb
    rw [List.mem_singleton] at hb
    subst hb
    exact hn ha

theorem foldl_setAdd_mem (xs : List String) :
    ∀ (acc : List String) (x : String), x ∈ xs.foldl setAdd acc ↔ x ∈ acc ∨ x ∈ xs := by
  induction xs with
  | nil => intro acc x; simp
  | cons y rest ih =>
    intro acc x
    rw [List.foldl_cons, ih, mem_setAdd, List.mem_cons]
    tauto

theorem foldl_setAdd_nodup (xs : List String) :
    ∀ (acc : List String), acc.Nodup → (xs.foldl setAdd acc).Nodup := by
  induction xs with
  | nil => intro acc h; exact h
  | cons y rest ih =>
    intro acc h
    rw [List.foldl_cons]
    exact ih _ (setAdd_nodup acc y h)

theorem foldl_setAdd_of_nodup (xs : List String) :
    ∀ (acc : List String), (acc ++ xs).Nodup → xs.foldl setAdd acc = acc ++ xs := by
  induction xs with
  | nil => intro acc _; simp
  | cons y rest ih =>
    intro acc h
    have hy : y ∉ acc := by
      intro hy
      rw [List.nodup_append] at h
      exact h.2.2 hy (List.mem_cons_self _ _)
    have hs : setAdd acc y = acc ++ [y] := by
      unfold setAdd
      simp [hy]
    rw [List.foldl_cons, hs, ih]
    · simp
    · simpa using h

theorem mem_newSet (xs : List String) (x : String) : x ∈ newSet xs ↔ x ∈ xs := by
  unfold newSet
  rw [foldl_setAdd_mem]
  simp

theorem newSet_nodup (xs : List String) : (newSet xs).Nodup :=
  foldl_setAdd_nodup xs [] List.nodup_nil

theorem newSet_of_nodup (xs : List String) (h : xs.Nodup) : newSet xs = xs := by
  unfold newSet
  rw [foldl_setAdd_of_nodup xs [] (by simpa using h)]
  simp

theorem mapStr_strs (set : List String) : mapStr (set.map JVal.str) = .ok set := by
  induction set with
  | nil => rfl
  | cons x rest ih =>
    rw [List.map_cons, mapStr]
    simp [toStr, ih]

theorem loadSentIdsTry_sentPayload (set : List String) :
    loadSentIdsTry (.json (sentPayload set)) = .ok (newSet set) := by
  simp [loadSentIdsTry, sentPayload, getProp, isNullish, field, lookup, mapStr_strs]

theorem loadSentIds_sentPayload (set : List String) :
    loadSentIds (.json (sentPayload set)) = newSet set := by
  simp [loadSentIds, loadSentIdsTry_sentPayload]

theorem loadSentIds_nodup (file : FileState) : (loadSentIds file).Nodup := by
  unfold loadSentIds
  cases h : loadSentIdsTry file with
  | error e => simp
  | ok set =>
    simp only
    unfold loadSentIdsTry at h
    split at h
    · cases h
    · cases h
    · split at h
      · cases h
      · simp only at h
        cases hm : mapStr _ with
        | error e => rw [hm] at h; cases h
        | ok strs =>
          rw [hm] at h
          cases h
          exact newSet_nodup _

theorem synced_boot {W : Type} (file : FileState) (w : W) : Synced (boot file w) :=
  ⟨loadSentIds_nodup file, rfl⟩

theorem pollBody_synced {W : Type} (E : Env W) (cfg : Config) (o : JVal) (s s1 : St W)
    (r : Except String (Option JVal)) (hw : WritesSucceed E) (hs : Synced s)
    (h : pollBody E cfg o s = (r, s1)) : Synced s1 := by
  rcases pollBody_cases E cfg o s with ⟨e, _, hb⟩ | ⟨id, _, _, hb⟩ |
    ⟨id, e, w, _, _, _, hb⟩ | ⟨id, out, w, _, _, _, _, hb⟩ |
    ⟨id, out, w, w2, _, _, _, _, _, hb⟩ |
    ⟨id, out, w, msg, left, w2, _, _, _, _, hwr, _⟩
  · rw [hb] at h; cases h; exact hs
  · rw [hb] at h; cases h; exact hs
  · rw [hb] at h; cases h; exact hs
  · rw [hb] at h; cases h; exact hs
  · rw [hb] at h; cases h
    have hn := setAdd_nodup s.sent id hs.1
    exact ⟨hn, by
      show loadSentIds (.json (sentPayload (setAdd s.sent id))) = setAdd s.sent id
      rw [loadSentIds_sentPayload, newSet_of_nodup _ hn]⟩
  · obtain ⟨w', h'⟩ := hw w s.file (sentPayload (setAdd s.sent id))
    rw [h'] at hwr; cases hwr

theorem pollLoop_synced {W : Type} (E : Env W) (cfg : Config) (page : List JVal)
    (hw : WritesSucceed E) :
    ∀ (s : St W) (acc : List JVal) (r : Except String (List JVal)) (s' : St W),
      Synced s → pollLoop E cfg page s acc = (r, s') → Synced s' := by
  induction page with
  | nil =>
    intro s acc r s' hs h
    rw [pollLoop_nil] at h
    cases h
    exact hs
  | cons o rest ih =>
    intro s acc r s' hs h
    rw [pollLoop_cons] at h
    rcases hb : pollBody E cfg o s with ⟨rb, s1⟩
    have hs1 := pollBody_synced E cfg o s s1 rb hw hs hb
    rw [hb] at h
    cases rb with
    | error e => cases h; exact hs1
    | ok v =>
      cases v with
      | none => exact ih s1 acc r s' hs1 h
      | some x => exact ih s1 _ r s' hs1 h

/-! ## Properties of `pollOnce` -/

theorem pollOnce_page {W : Type} (E : Env W) (cfg : Config) (page : List JVal) (s : St W) :
    (∃ e, requireEnv cfg = .error e ∧ pollOnce E cfg (.ok page) s = (.error e, s)) ∨
    (requireEnv cfg = .ok () ∧ pollOnce E cfg (.ok page) s = pollLoop E cfg page s []) := by
  unfold pollOnce
  cases h : requireEnv cfg with
  | error e => exact Or.inl ⟨e, rfl, rfl⟩
  | ok u => exact Or.inr ⟨rfl, rfl⟩

theorem pollOnce_facts {W : Type} (E : Env W) (cfg : Config) (page : List JVal) (s s' : St W)
    (r : Except String (List JVal)) (h : pollOnce E cfg (.ok page) s = (r, s')) :
    ∃ new, LoopFacts page s [] r s' new := by
  rcases pollOnce_page E cfg page s with ⟨e, _, he⟩ | ⟨_, hl⟩
  · rw [he] at h
    obtain ⟨rfl, rfl⟩ := Prod.mk.inj h
    refine ⟨[], ?_, ?_, ?_, ?_, ?_, ?_, ?_⟩
    · simp
    · intro x; simp
    · simp
    · simp
    · intro res hr; cases hr
    · intro res hr; cases hr
    · intro res hr; cases hr
  · rw [hl] at h
    exact pollLoop_facts E cfg page s [] r s' h

theorem pollOnce_ok_env {W : Type} (E : Env W) (cfg : Config) (page : List JVal) (s s' : St W)
    (res : List JVal) (h : pollOnce E cfg (.ok page) s = (.ok res, s')) :
    requireEnv cfg = .ok () ∧ pollLoop E cfg page s [] = (.ok res, s') := by
  rcases pollOnce_page E cfg page s with ⟨e, _, he⟩ | ⟨henv, hl⟩
  · rw [he] at h; cases h
  · exact ⟨henv, by rw [← hl]; exact h⟩

theorem outcomes_of_calls (new : List (JVal × Except String JVal))
    (h : ∀ c ∈ new, ∃ out, c.2 = .ok out) :
    ∃ outs : List JVal, new.map Prod.snd = outs.map Except.ok ∧
      new.filterMap (fun c => c.2.toOption.map resultOf) = outs.map resultOf := by
  induction new with
  | nil => exact ⟨[], rfl, rfl⟩
  | cons c rest ih =>
    obtain ⟨out, hc⟩ := h c (List.mem_cons_self _ _)
    obtain ⟨outs, h1, h2⟩ := ih (fun d hd => h d (List.mem_cons_of_mem _ hd))
    refine ⟨out :: outs, ?_, ?_⟩
    · simp [hc, h1]
    · rw [List.filterMap_cons, hc, List.map_cons, ← h2]
      rfl

/-- C1. Two poll cycles in a row on the same page, the second from the state
the first left: the second makes no forward call for an order whose identifier
was delivered in the first; and when the first returned with every forward
delivered, the second makes no forward call at all and returns the empty list. -/
theorem pollOnce_twice_idempotent {W : Type} (E : Env W) (cfg : Config) (page : List JVal)
    (s s1 s2 : St W) (r1 r2 : Except String (List JVal))
    (h1 : pollOnce E cfg (.ok page) s = (r1, s1))
    (h2 : pollOnce E cfg (.ok page) s1 = (r2, s2)) :
    (∀ o out, (o, Except.ok out) ∈ callsSince s s1 → delivered out = true →
      ∀ c ∈ callsSince s1 s2, entityId c.1 ≠ entityId o) ∧
    ((∃ res, r1 = .ok res) →
      (∀ c ∈ callsSince s s1, ∃ out, c.2 = .ok out ∧ delivered out = true) →
      callsSince s1 s2 = [] ∧ r2 = .ok []) := by
  obtain ⟨new1, f1⟩ := pollOnce_facts E cfg page s s1 r1 h1
  obtain ⟨new2, f2⟩ := pollOnce_facts E cfg page s1 s2 r2 h2
  rw [callsSince_eq s s1 new1 f1.calls_eq, callsSince_eq s1 s2 new2 f2.calls_eq]
  constructor
  · intro o out ho hd c hc heq
    obtain ⟨id, hid, _⟩ := f1.fresh (o, .ok out) ho
    obtain ⟨id2, hid2, hn2⟩ := f2.fresh c hc
    have hmem : id ∈ s1.sent := (f1.sent_iff id).mpr (Or.inr ⟨o, out, ho, hd, hid⟩)
    rw [hid2] at heq
    simp only at hid
    rw [hid] at heq
    cases heq
    exact hn2 hmem
  · rintro ⟨res, rfl⟩ hall
    have hcov : ∀ o ∈ page, ∃ id, entityId o = .ok id ∧ id ∈ s1.sent := by
      intro o ho
      obtain ⟨id, hid, hc⟩ := f1.cover res rfl o ho
      refine ⟨id, hid, ?_⟩
      rcases hc with hc | ⟨out, hmem, hd⟩
      · exact hc
      · obtain ⟨out', ho', hd'⟩ := hall _ hmem
        cases ho'
        rw [hd] at hd'
        cases hd'
    have henv := (pollOnce_ok_env E cfg page s s1 res h1).1
    rcases pollOnce_page E cfg page s1 with ⟨e, he, _⟩ | ⟨_, hl⟩
    · rw [henv] at he; cases he
    · rw [hl, pollLoop_skip_all E cfg page s1 [] hcov] at h2
      obtain ⟨rfl, rfl⟩ := Prod.mk.inj h2
      have hnil : s1.calls ++ new2 = s1.calls ++ [] := by
        rw [List.append_nil]; exact f2.calls_eq.symm
      exact ⟨List.append_cancel_left hnil, rfl⟩

/-- C2. After a poll cycle the ledger holds what it held before and the
identifiers of the orders whose forward call gave statusCode 200, nothing else:
an identifier not held before, none of whose forwards was delivered, is not
held afterwards.  In the scenario of the specification (empty ledger, orders
101 and 102, the target accepts 101 only) the ledger ends as `["101"]`, two
outcomes are returned, and a second cycle on the same page calls the forwarder
for order 102 only. -/
theorem pollOnce_marks_exactly_delivered {W : Type} (E : Env W) (cfg : Config)
    (page : List JVal) (s s' : St W) (r : Except String (List JVal))
    (h : pollOnce E cfg (.ok page) s = (r, s')) :
    (∀ x, x ∈ s'.sent ↔ x ∈ s.sent ∨
      ∃ o out, (o, Except.ok out) ∈ callsSince s s' ∧ delivered out = true ∧
        entityId o = .ok x) ∧
    (∀ x, x ∉ s.sent →
      (∀ o out, (o, Except.ok out) ∈ callsSince s s' → entityId o = .ok x →
        delivered out = false) → x ∉ s'.sent) ∧
    ((pollOnce (actionEnv targetAccepts101 diskOk) sampleCfg
        (.ok [orderWith (.num "101"), orderWith (.num "102")]) (boot .missing ())).2.sent = ["101"] ∧
      (pollOnce (actionEnv targetAccepts101 diskOk) sampleCfg
        (.ok [orderWith (.num "101"), orderWith (.num "102")]) (boot .missing ())).1.toOption.map
          List.length = some 2 ∧
      (callsSince
        (pollOnce (actionEnv targetAccepts101 diskOk) sampleCfg
          (.ok [orderWith (.num "101"), orderWith (.num "102")]) (boot .missing ())).2
        (pollOnce (actionEnv targetAccepts101 diskOk) sampleCfg
          (.ok [orderWith (.num "101"), orderWith (.num "102")])
          (pollOnce (actionEnv targetAccepts101 diskOk) sampleCfg
            (.ok [orderWith (.num "101"), orderWith (.num "102")]) (boot .missing ())).2).2).map
        Prod.fst = [orderWith (.num "102")]) := by
  obtain ⟨new, f⟩ := pollOnce_facts E cfg page s s' r h
  rw [callsSince_eq s s' new f.calls_eq]
  refine ⟨f.sent_iff, ?_, rfl, rfl, rfl⟩
  intro x hx hall hmem
  rcases (f.sent_iff x).mp hmem with h0 | ⟨o, out, ho, hd, hid⟩
  · exact hx h0
  · rw [hall o out ho hid] at hd
    cases hd

/-- C9. The list a poll cycle returns has one entry per forward call, in the
order of the calls, which is the order of the page; an order whose identifier
is in the ledger when it is reached (also a later duplicate of an order
delivered earlier in the page) adds no call and no entry, so the cycle runs as
on the page without it; the count reported by the HTTP trigger is the number
of forward calls; and the cycle returns such a list whenever nothing throws. -/
theorem pollOnce_outcome_list {W : Type} (E : Env W) (cfg : Config) (page : List JVal)
    (s s' : St W) (r : Except String (List JVal))
    (h : pollOnce E cfg (.ok page) s = (r, s')) :
    (∀ res, r = .ok res →
      (∃ outs : List JVal, (callsSince s s').map Prod.snd = outs.map Except.ok ∧
        res = outs.map resultOf) ∧
      res.length = (callsSince s s').length ∧
      (runPollOnce E cfg (.ok page) s).1.body =
        .obj [("ok", .bool true), ("forwarded_attempts", .num (toString (callsSince s s').length)),
          ("results", .arr res)]) ∧
    ((callsSince s s').map Prod.fst).Sublist page ∧
    (∀ pre o post acc1 s1 id, page = pre ++ o :: post →
      pollLoop E cfg pre s [] = (.ok acc1, s1) → entityId o = .ok id → id ∈ s1.sent →
      pollLoop E cfg (pre ++ [o]) s [] = (.ok acc1, s1) ∧
      pollLoop E cfg page s [] = pollLoop E cfg (pre ++ post) s []) ∧
    (∀ pre o post acc1 s1 q out, page = pre ++ o :: post →
      pollLoop E cfg pre s [] = (.ok acc1, s1) → (q, Except.ok out) ∈ callsSince s s1 →
      delivered out = true → entityId q = entityId o →
      pollLoop E cfg (pre ++ [o]) s [] = (.ok acc1, s1)) ∧
    (requireEnv cfg = .ok () → ForwardReturns E cfg → WritesSucceed E →
      (∀ o ∈ page, ∃ id, entityId o = .ok id) → ∃ res, r = .ok res) := by
  obtain ⟨new, f⟩ := pollOnce_facts E cfg page s s' r h
  rw [callsSince_eq s s' new f.calls_eq]
  have hskip : ∀ pre o acc1 s1 id, pollLoop E cfg pre s [] = (.ok acc1, s1) →
      entityId o = .ok id → id ∈ s1.sent →
      pollLoop E cfg [o] s1 acc1 = (.ok acc1, s1) := by
    intro pre o acc1 s1 id _ hid hm
    apply pollLoop_skip_all
    intro p hp
    rw [List.mem_singleton] at hp
    subst hp
    exact ⟨id, hid, hm⟩
  refine ⟨?_, f.sublist, ?_, ?_, ?_⟩
  · intro res hr
    obtain ⟨outs, ho1, ho2⟩ := outcomes_of_calls new (f.all_ok res hr)
    have hres : res = outs.map resultOf := by
      rw [f.results res hr, ho2]; simp
    have hlen : res.length = new.length := by
      rw [hres, List.length_map, ← List.length_map new Prod.snd, ho1, List.length_map]
    refine ⟨⟨outs, ho1, hres⟩, hlen, ?_⟩
    subst hr
    unfold runPollOnce
    rw [h]
    simp only [hlen]
  · intro pre o post acc1 s1 id hpage hpre hid hm
    have h1 := hskip pre o acc1 s1 id hpre hid hm
    refine ⟨by rw [pollLoop_append_ok E cfg pre [o] s s1 [] acc1 hpre, h1], ?_⟩
    rw [hpage, pollLoop_append_ok E cfg pre (o :: post) s s1 [] acc1 hpre,
      pollLoop_append_ok E cfg pre post s s1 [] acc1 hpre]
    have h2 := pollLoop_append_ok E cfg [o] post s1 s1 acc1 acc1 h1
    simpa using h2
  · intro pre o post acc1 s1 q out _ hpre hq hd heq
    obtain ⟨newp, fp⟩ := pollLoop_facts E cfg pre s [] (.ok acc1) s1 hpre
    rw [callsSince_eq s s1 newp fp.calls_eq] at hq
    obtain ⟨id, hid, _⟩ := fp.fresh (q, .ok out) hq
    simp only at hid
    have hm : id ∈ s1.sent := (fp.sent_iff id).mpr (Or.inr ⟨q, out, hq, hd, hid⟩)
    rw [hid] at heq
    rw [pollLoop_append_ok E cfg pre [o] s s1 [] acc1 hpre]
    exact hskip pre o acc1 s1 id hpre heq.symm hm
  · intro henv hf hw hids
    obtain ⟨res, s2, hl⟩ := pollLoop_returns E cfg page hf hw hids s []
    rcases pollOnce_page E cfg page s with ⟨e, he, _⟩ | ⟨_, hp⟩
    · rw [henv] at he; cases he
    · rw [hp, hl] at h
      exact ⟨res, (Prod.mk.inj h).1.symm⟩

theorem pollBody_invoked {W : Type} (E : Env W) (cfg : Config) (p : JVal) (s : St W)
    (k : String) (hf : ForwardReturns E cfg) (hw : WritesSucceed E)
    (hid : entityId p = .ok k) (hm : k ∉ s.sent) :
    ∃ outp wp s1, E.invokeAction s.world (actionParams cfg p) = (.ok outp, wp) ∧
      pollBody E cfg p s = (.ok (some (resultOf outp)), s1) ∧
      s1.calls = s.calls ++ [(p, .ok outp)] := by
  rcases pollBody_cases E cfg p s with ⟨e, hid', _⟩ | ⟨id, hid', hm', _⟩ |
    ⟨id, e, w, _, _, hinv, _⟩ | ⟨id, out, w, _, _, hinv, _, hb⟩ |
    ⟨id, out, w, w2, _, _, hinv, _, _, hb⟩ |
    ⟨id, out, w, msg, left, w2, _, _, _, _, hwr, _⟩
  · rw [hid] at hid'; cases hid'
  · rw [hid] at hid'; cases hid'; exact absurd hm' hm
  · obtain ⟨out, w', h'⟩ := hf s.world p
    rw [h'] at hinv; cases hinv
  · exact ⟨out, w, _, hinv, hb, rfl⟩
  · exact ⟨out, w, _, hinv, hb, rfl⟩
  · obtain ⟨w', h'⟩ := hw w s.file (sentPayload (setAdd s.sent id))
    rw [h'] at hwr; cases hwr

theorem pollBody_not_delivered {W : Type} (E : Env W) (cfg : Config) (o : JVal) (s : St W)
    (id : String) (out : JVal) (w : W) (hid : entityId o = .ok id) (hm : id ∉ s.sent)
    (hinv : E.invokeAction s.world (actionParams cfg o) = (.ok out, w))
    (hd : delivered out = false) :
    pollBody E cfg o s = (.ok (some (resultOf out)), afterCall s w o (.ok out)) := by
  unfold pollBody
  simp [hid, hm, hinv, hd, afterCall]

theorem pollBody_write_failed {W : Type} (E : Env W) (cfg : Config) (o : JVal) (s : St W)
    (id : String) (out : JVal) (w w2 : W) (msg : String) (left : FileState)
    (hid : entityId o = .ok id) (hm : id ∉ s.sent)
    (hinv : E.invokeAction s.world (actionParams cfg o) = (.ok out, w))
    (hd : delivered out = true)
    (hw : E.writeFile w s.file (sentPayload (setAdd s.sent id)) = (.failed msg left, w2)) :
    pollBody E cfg o s = (.error msg,
      { sent := setAdd s.sent id, file := left, world := w2,
        calls := s.calls ++ [(o, .ok out)] }) := by
  unfold pollBody
  simp [hid, hm, hinv, hd, saveSentIds, hw]

theorem pollOnce_of_env {W : Type} (E : Env W) (cfg : Config) (page : List JVal) (s : St W)
    (henv : requireEnv cfg = .ok ()) :
    pollOnce E cfg (.ok page) s = pollLoop E cfg page s [] := by
  unfold pollOnce
  rw [henv]

/-- C3, as the code has it. When the forwarder reports delivered for an order
and the write of the ledger file then throws, the poll cycle fails with that
error: the identifier is already in the in-memory set, the file is as the
failed write left it, no outcome list is returned, no later order of the page is
forwarded, and the HTTP trigger answers 500 with the message. -/
theorem pollOnce_write_failure_propagates {W : Type} (E : Env W) (cfg : Config)
    (pre post : List JVal) (o : JVal) (s s1 : St W) (acc1 : List JVal) (id : String)
    (out : JVal) (w w2 : W) (msg : String) (left : FileState)
    (henv : requireEnv cfg = .ok ())
    (hpre : pollLoop E cfg pre s [] = (.ok acc1, s1))
    (hid : entityId o = .ok id) (hm : id ∉ s1.sent)
    (hinv : E.invokeAction s1.world (actionParams cfg o) = (.ok out, w))
    (hd : delivered out = true)
    (hw : E.writeFile w s1.file (sentPayload (setAdd s1.sent id)) = (.failed msg left, w2)) :
    pollOnce E cfg (.ok (pre ++ o :: post)) s = (.error msg,
      { sent := setAdd s1.sent id, file := left, world := w2,
        calls := s1.calls ++ [(o, .ok out)] }) ∧
    (runPollOnce E cfg (.ok (pre ++ o :: post)) s).1.status = .num "500" ∧
    (runPollOnce E cfg (.ok (pre ++ o :: post)) s).1.body =
      .obj [("ok", .bool false), ("error", .str msg)] := by
  have h : pollOnce E cfg (.ok (pre ++ o :: post)) s = (.error msg,
      { sent := setAdd s1.sent id, file := left, world := w2,
        calls := s1.calls ++ [(o, .ok out)] }) := by
    rw [pollOnce_of_env E cfg _ s henv, pollLoop_append_ok E cfg pre (o :: post) s s1 [] acc1 hpre,
      pollLoop_cons, pollBody_write_failed E cfg o s1 id out w w2 msg left hid hm hinv hd hw]
  refine ⟨h, ?_, ?_⟩
  · unfold runPollOnce
    rw [h]
  · unfold runPollOnce
    rw [h]

/-- C4. A forward call that gives a non-delivered outcome leaves the ledger as
it was and the cycle goes on with the rest of the page, the outcome appended to
the results; and when nothing throws, the cycle returns, and every later order
whose identifier is not in the ledger when it is reached is forwarded, with its
outcome in the returned list. -/
theorem pollOnce_partial_batch {W : Type} (E : Env W) (cfg : Config)
    (pre post : List JVal) (o : JVal) (s s1 : St W) (acc1 : List JVal) (id : String)
    (out : JVal) (w : W)
    (henv : requireEnv cfg = .ok ())
    (hpre : pollLoop E cfg pre s [] = (.ok acc1, s1))
    (hid : entityId o = .ok id) (hm : id ∉ s1.sent)
    (hinv : E.invokeAction s1.world (actionParams cfg o) = (.ok out, w))
    (hd : delivered out = false) :
    pollOnce E cfg (.ok (pre ++ o :: post)) s =
      pollLoop E cfg post (afterCall s1 w o (.ok out)) (acc1 ++ [resultOf out]) ∧
    (afterCall s1 w o (.ok out)).sent = s1.sent ∧
    (ForwardReturns E cfg → WritesSucceed E → (∀ p ∈ post, ∃ k, entityId p = .ok k) →
      ∃ res s', pollOnce E cfg (.ok (pre ++ o :: post)) s = (.ok res, s') ∧
        (acc1 ++ [resultOf out]) <+: res ∧
        ∀ mid p tail, post = mid ++ p :: tail →
          ∃ accj sj, pollLoop E cfg mid (afterCall s1 w o (.ok out)) (acc1 ++ [resultOf out]) =
              (.ok accj, sj) ∧
            ∀ k, entityId p = .ok k → k ∉ sj.sent →
              ∃ outp wp, E.invokeAction sj.world (actionParams cfg p) = (.ok outp, wp) ∧
                (accj ++ [resultOf outp]) <+: res ∧
                (sj.calls ++ [(p, .ok outp)]) <+: s'.calls) := by
  have hstep : pollOnce E cfg (.ok (pre ++ o :: post)) s =
      pollLoop E cfg post (afterCall s1 w o (.ok out)) (acc1 ++ [resultOf out]) := by
    rw [pollOnce_of_env E cfg _ s henv, pollLoop_append_ok E cfg pre (o :: post) s s1 [] acc1 hpre,
      pollLoop_cons, pollBody_not_delivered E cfg o s1 id out w hid hm hinv hd]
  refine ⟨hstep, rfl, ?_⟩
  intro hf hw hids
  obtain ⟨res, s', hl⟩ := pollLoop_returns E cfg post hf hw hids
    (afterCall s1 w o (.ok out)) (acc1 ++ [resultOf out])
  refine ⟨res, s', by rw [hstep, hl], ?_, ?_⟩
  · obtain ⟨new, f⟩ := pollLoop_facts E cfg post _ _ _ _ hl
    exact ⟨_, (f.results res rfl).symm⟩
  · intro mid p tail hpost
    subst hpost
    obtain ⟨accj, sj, hmid⟩ := pollLoop_returns E cfg mid hf hw
      (fun q hq => hids q (List.mem_append_left _ hq))
      (afterCall s1 w o (.ok out)) (acc1 ++ [resultOf out])
    refine ⟨accj, sj, hmid, ?_⟩
    intro k hk hkm
    obtain ⟨outp, wp, sj1, hinvp, hbp, hcalls⟩ := pollBody_invoked E cfg p sj k hf hw hk hkm
    refine ⟨outp, wp, hinvp, ?_, ?_⟩
    all_goals
      rw [pollLoop_append_ok E cfg mid (p :: tail) _ sj _ accj hmid, pollLoop_cons, hbp] at hl
      obtain ⟨new, f⟩ := pollLoop_facts E cfg tail _ _ _ _ hl
    · exact ⟨_, (f.results res rfl).symm⟩
    · rw [← hcalls]
      exact ⟨_, f.calls_eq.symm⟩

/-! ## The ledger file -/

theorem pollOnce_synced {W : Type} (E : Env W) (cfg : Config) (page : List JVal)
    (hw : WritesSucceed E) (s s' : St W) (r : Except String (List JVal)) (hs : Synced s)
    (h : pollOnce E cfg (.ok page) s = (r, s')) : Synced s' := by
  rcases pollOnce_page E cfg page s with ⟨e, _, he⟩ | ⟨_, hl⟩
  · rw [he] at h; cases h; exact hs
  · rw [hl] at h
    exact pollLoop_synced E cfg page hw s [] r s' hs h

theorem pollBody_mark_file {W : Type} (E : Env W) (cfg : Config) (o : JVal) (s s1 : St W)
    (v : Option JVal) (out : JVal) (h : pollBody E cfg o s = (.ok v, s1))
    (hc : (o, Except.ok out) ∈ callsSince s s1) (hd : delivered out = true) :
    s1.file = .json (sentPayload s1.sent) := by
  rcases pollBody_cases E cfg o s with ⟨e, _, hb⟩ | ⟨id, _, _, hb⟩ |
    ⟨id, e, w, _, _, _, hb⟩ | ⟨id, out', w, _, _, _, hd', hb⟩ |
    ⟨id, out', w, w2, _, _, _, _, _, hb⟩ |
    ⟨id, out', w, msg, left, w2, _, _, _, _, _, hb⟩
  · rw [hb] at h; cases h
  · rw [hb] at h; cases h
    rw [callsSince_eq s s [] (by simp)] at hc
    cases hc
  · rw [hb] at h; cases h
  · rw [hb] at h; cases h
    rw [callsSince_eq s (afterCall s w o (.ok out')) [(o, .ok out')] rfl,
      List.mem_singleton] at hc
    cases hc
    rw [hd] at hd'
    cases hd'
  · rw [hb] at h; cases h
    rfl
  · rw [hb] at h; cases h

/-- C5. The set that `loadSentIds` reads from the file `saveSentIds` wrote has
the members of the set written (and is that set); a successful mark in the poll
loop leaves the file holding the whole in-memory set; a process starts with
the file and the in-memory set in step; and when no write fails, a process
restarted after a poll cycle that began in step loads the ledger the cycle
left, so a cycle after the restart makes no forward call for an identifier of
that ledger, in particular for none delivered before the restart. -/
theorem ledger_survives_restart {W : Type} (E : Env W) (cfg : Config) :
    (∀ (set : List String) (st st' : St W), saveSentIds E set st = (.ok (), st') →
      (∀ x, x ∈ loadSentIds st'.file ↔ x ∈ set) ∧
      (set.Nodup → loadSentIds st'.file = set)) ∧
    (∀ (o : JVal) (s s1 : St W) (v : Option JVal) (out : JVal),
      pollBody E cfg o s = (.ok v, s1) → (o, Except.ok out) ∈ callsSince s s1 →
      delivered out = true → s1.file = .json (sentPayload s1.sent)) ∧
    (∀ (file : FileState) (w : W), Synced (boot file w)) ∧
    (WritesSucceed E → ∀ (s : St W) (w2 : W) (page : List JVal)
      (r r2 : Except String (List JVal)) (s' s2 : St W), Synced s →
      pollOnce E cfg (.ok page) s = (r, s') →
      pollOnce E cfg (.ok page) (boot s'.file w2) = (r2, s2) →
      (boot s'.file w2 : St W).sent = s'.sent ∧
      (∀ c ∈ s2.calls, ∀ id, entityId c.1 = .ok id → id ∉ s'.sent) ∧
      (∀ o out, (o, Except.ok out) ∈ callsSince s s' → delivered out = true →
        ∀ c ∈ s2.calls, entityId c.1 ≠ entityId o)) := by
  refine ⟨?_, ?_, synced_boot, ?_⟩
  · intro set st st' h
    have hfile : st'.file = .json (sentPayload set) := by
      unfold saveSentIds at h
      simp only at h
      split at h
      · cases h; rfl
      · cases h
    rw [hfile, loadSentIds_sentPayload]
    exact ⟨fun x => mem_newSet set x, newSet_of_nodup set⟩
  · intro o s s1 v out h hc hd
    exact pollBody_mark_file E cfg o s s1 v out h hc hd
  · intro hw s w2 page r r2 s' s2 hsync h1 h2
    have hs := pollOnce_synced E cfg page hw s s' r hsync h1
    have hboot : (boot s'.file w2 : St W).sent = s'.sent := hs.2
    obtain ⟨new1, f1⟩ := pollOnce_facts E cfg page s s' r h1
    obtain ⟨new2, f2⟩ := pollOnce_facts E cfg page _ s2 r2 h2
    have hc1 : callsSince s s' = new1 := callsSince_eq s s' new1 f1.calls_eq
    have hc2 : s2.calls = new2 := by rw [f2.calls_eq]; rfl
    have hskip : ∀ c ∈ s2.calls, ∀ id, entityId c.1 = .ok id → id ∉ s'.sent := by
      intro c hc id hid
      rw [hc2] at hc
      obtain ⟨id2, hid2, hn⟩ := f2.fresh c hc
      rw [hid] at hid2
      cases hid2
      rw [hboot] at hn
      exact hn
    refine ⟨hboot, hskip, ?_⟩
    intro o out ho hd c hc heq
    rw [hc1] at ho
    obtain ⟨id, hid, _⟩ := f1.fresh (o, .ok out) ho
    simp only at hid
    have hmem : id ∈ s'.sent := (f1.sent_iff id).mpr (Or.inr ⟨o, out, ho, hd, hid⟩)
    rw [hid] at heq
    exact hskip c hc id heq hmem

/-- C6. The function `loadSentIds` is total: whatever the try block throws, the
catch gives the empty set; and for a file that is missing, that is not JSON, or
whose value is not an object with an array `sent_order_ids`, the result is the
empty set. -/
theorem loadSentIds_corrupt_is_empty (file : FileState) :
    (∀ e, loadSentIdsTry file = .error e → loadSentIds file = []) ∧
    ((file = .missing ∨ file = .garbage ∨
      ∃ v, file = .json v ∧
        ¬ ∃ kvs xs, v = .obj kvs ∧ lookup "sent_order_ids" kvs = some (.arr xs)) →
      loadSentIds file = []) := by
  constructor
  · intro e he
    unfold loadSentIds
    rw [he]
  · rintro (rfl | rfl | ⟨v, rfl, hv⟩)
    · rfl
    · rfl
    · cases v with
      | undefined => rfl
      | null => rfl
      | bool b => rfl
      | num t => rfl
      | str t => rfl
      | arr xs => rfl
      | obj kvs =>
        cases hl : lookup "sent_order_ids" kvs with
        | none =>
          simp [loadSentIds, loadSentIdsTry, getProp, isNullish, field, hl, mapStr, newSet]
        | some f =>
          cases f with
          | arr xs => exact absurd ⟨kvs, xs, rfl, hl⟩ hv
          | _ => simp [loadSentIds, loadSentIdsTry, getProp, isNullish, field, hl, mapStr, newSet]

/-! ## The handlers -/

theorem saveSentIds_sent {W : Type} (E : Env W) (set : List String) (s : St W) :
    (saveSentIds E set s).2.sent = s.sent ∧
    (saveSentIds E set s).2.calls = s.calls := by
  unfold saveSentIds
  simp only
  split <;> exact ⟨rfl, rfl⟩

theorem runForwardTry_cases {W : Type} (E : Env W) (cfg : Config)
    (fetched : Except String JVal) (s : St W) :
    (runForwardTry E cfg fetched s).2.sent = s.sent ∨
    ∃ order out w id, fetched = .ok order ∧ requireEnv cfg = .ok () ∧
      E.invokeAction s.world (actionParams cfg order) = (.ok out, w) ∧
      delivered out = true ∧ entityId order = .ok id ∧
      (runForwardTry E cfg fetched s).2.sent = setAdd s.sent id := by
  cases henv : requireEnv cfg with
  | error e => left; simp only [runForwardTry, henv]
  | ok u =>
    cases fetched with
    | error e => left; simp only [runForwardTry, henv]
    | ok order =>
      rcases hinv : E.invokeAction s.world (actionParams cfg order) with ⟨r, w⟩
      cases r with
      | error e => left; simp only [runForwardTry, henv, hinv]
      | ok out =>
        have hresp : ∀ t : St W, (match getProp out "statusCode", getProp out "body" with
            | .error e, _ => ((.error e : Except String HttpResponse), t)
            | _, .error e => (.error e, t)
            | .ok code, .ok body =>
              (.ok ⟨if truthy code then code else .num "200",
                if truthy body then body else out⟩, t)).2 = t := by
          intro t
          split <;> rfl
        cases hd : delivered out with
        | false =>
          left
          simp only [runForwardTry, henv, hinv, hd, Bool.false_eq_true, ↓reduceIte]
          rw [hresp]
        | true =>
          cases hid : entityId order with
          | error e => left; simp only [runForwardTry, henv, hinv, hd, hid, ↓reduceIte]
          | ok id =>
            right
            refine ⟨order, out, w, id, rfl, rfl, hinv, hd, hid, ?_⟩
            simp only [runForwardTry, henv, hinv, hd, hid, ↓reduceIte]
            rcases hs : saveSentIds E (setAdd s.sent id)
              { sent := setAdd s.sent id, file := s.file, world := w,
                calls := s.calls ++ [(order, .ok out)] } with ⟨rs, s3⟩
            have h3 := (saveSentIds_sent E (setAdd s.sent id)
              { sent := setAdd s.sent id, file := s.file, world := w,
                calls := s.calls ++ [(order, .ok out)] }).1
            rw [hs] at h3
            cases rs with
            | error e => exact h3
            | ok u =>
              simp only
              rw [hresp]
              exact h3

theorem runForward_state {W : Type} (E : Env W) (cfg : Config)
    (fetched : Except String JVal) (s : St W) :
    (runForward E cfg fetched s).2 = (runForwardTry E cfg fetched s).2 := by
  unfold runForward
  split <;> simp_all

theorem runPollOnce_state {W : Type} (E : Env W) (cfg : Config)
    (fetched : Except String (List JVal)) (s : St W) :
    (runPollOnce E cfg fetched s).2 = (pollOnce E cfg fetched s).2 := by
  unfold runPollOnce
  split <;> simp_all

theorem pollOnce_sent_mono {W : Type} (E : Env W) (cfg : Config)
    (fetched : Except String (List JVal)) (s : St W) (x : String) (hx : x ∈ s.sent) :
    x ∈ (pollOnce E cfg fetched s).2.sent := by
  cases fetched with
  | error e =>
    unfold pollOnce
    split <;> exact hx
  | ok page =>
    obtain ⟨new, f⟩ := pollOnce_facts E cfg page s _ _ rfl
    exact (f.sent_iff x).mpr (Or.inl hx)

/-- C7. Every operation other than the administrative reset (a poll cycle
whatever the order source gave and however the cycle ended, the manual forward,
the inspection) leaves every identifier of the ledger in the ledger; the reset
leaves the in-memory set empty and writes the payload of the empty set, so that
when the write succeeds the file holds the empty set. -/
theorem ledger_monotone_except_reset {W : Type} (E : Env W) (cfg : Config) (op : Op)
    (s : St W) :
    (op.isReset = false → ∀ x ∈ s.sent, x ∈ (op.run E cfg s).sent) ∧
    (Op.reset.run E cfg s).sent = [] ∧
    (∀ w, E.writeFile s.world s.file (sentPayload []) = (.done, w) →
      (Op.reset.run E cfg s).file = .json (sentPayload []) ∧
      loadSentIds (Op.reset.run E cfg s).file = []) := by
  refine ⟨?_, ?_, ?_⟩
  · intro hop x hx
    cases op with
    | poll fetched =>
      show x ∈ (runPollOnce E cfg fetched s).2.sent
      rw [runPollOnce_state]
      exact pollOnce_sent_mono E cfg fetched s x hx
    | forward fetched =>
      show x ∈ (runForward E cfg fetched s).2.sent
      rw [runForward_state]
      rcases runForwardTry_cases E cfg fetched s with h | ⟨_, _, _, id, _, _, _, _, _, h⟩
      · rw [h]; exact hx
      · rw [h]; exact (mem_setAdd _ _ _).mpr (Or.inl hx)
    | inspect => exact hx
    | reset => cases hop
  · show (adminSentReset E s).2.sent = []
    unfold adminSentReset
    simp only
    have h := (saveSentIds_sent E [] { s with sent := [] }).1
    split
    · rename_i heq; rw [heq] at h; exact h
    · rename_i heq; rw [heq] at h; exact h
  · intro w hw
    have hfile : (Op.reset.run E cfg s).file = .json (sentPayload []) := by
      show (adminSentReset E s).2.file = _
      simp [adminSentReset, saveSentIds, hw]
    rw [hfile]
    exact ⟨rfl, rfl⟩

theorem mapStr_mem (xs : List JVal) (b : JVal) (k : String) (hb : toStr b = .ok k)
    (hmem : b ∈ xs) (hall : ∀ v ∈ xs, ∃ t, toStr v = .ok t) :
    ∃ strs, mapStr xs = .ok strs ∧ k ∈ strs := by
  induction xs with
  | nil => cases hmem
  | cons x rest ih =>
    obtain ⟨t, ht⟩ := hall x (List.mem_cons_self _ _)
    have hrest : ∃ ss, mapStr rest = .ok ss := by
      clear ih hmem
      induction rest with
      | nil => exact ⟨[], rfl⟩
      | cons y ys ihy =>
        obtain ⟨u, hu⟩ := hall y (List.mem_cons_of_mem _ (List.mem_cons_self _ _))
        obtain ⟨ss, hss⟩ := ihy (fun v hv => by
          rcases List.mem_cons.mp hv with rfl | hv
          · exact hall v (List.mem_cons_self _ _)
          · exact hall v (List.mem_cons_of_mem _ (List.mem_cons_of_mem _ hv)))
        exact ⟨u :: ss, by rw [mapStr, hu, hss]⟩
    obtain ⟨ss, hss⟩ := hrest
    refine ⟨t :: ss, by rw [mapStr, ht, hss], ?_⟩
    rcases List.mem_cons.mp hmem with rfl | hmem
    · rw [hb] at ht
      cases ht
      exact List.mem_cons_self _ _
    · obtain ⟨strs, hs, hk⟩ := ih hmem (fun v hv => hall v (List.mem_cons_of_mem _ hv))
      rw [hss] at hs
      cases hs
      exact List.mem_cons_of_mem _ hk

/-- C8. Membership is decided on `String(entity_id)`: for identifiers `a` and
`b` with the same string form `k`, an order with `entity_id` `a` is skipped by
the poll loop when `k` is in the ledger and forwarded when it is not; and `k` is
in the ledger after a file listing `b` is loaded, after a poll cycle in which an
order with `entity_id` `b` was delivered, and after the manual forward of such
an order was delivered.  A file listing the number 101 and a file listing the
text "101" both make the poll cycle skip the orders with `entity_id` 101 and
"101"; a file listing the text "1e+21" and the number 1.5 makes it skip the
orders with `entity_id` 1e21 and "1.5"; and a file listing the text
"1000000000000000000000", which is not `String(1e21)`, leaves the order with
`entity_id` 1e21 to be forwarded. -/
theorem canonical_identifier_membership {W : Type} (E : Env W) (cfg : Config)
    (a b : JVal) (k : String) (ha : toStr a = .ok k) (hb : toStr b = .ok k) :
    (∀ (order : JVal) (s : St W), getProp order "entity_id" = .ok a →
      (k ∈ s.sent → pollBody E cfg order s = (.ok none, s)) ∧
      (k ∉ s.sent → (pollBody E cfg order s).2.calls =
        s.calls ++ [(order, (E.invokeAction s.world (actionParams cfg order)).1)])) ∧
    (∀ (kvs : List (String × JVal)) (xs : List JVal),
      lookup "sent_order_ids" kvs = some (.arr xs) → b ∈ xs →
      (∀ v ∈ xs, ∃ t, toStr v = .ok t) → k ∈ loadSentIds (.json (.obj kvs))) ∧
    (∀ (page : List JVal) (order out : JVal) (s s' : St W) (r : Except String (List JVal)),
      getProp order "entity_id" = .ok b → pollOnce E cfg (.ok page) s = (r, s') →
      (order, Except.ok out) ∈ callsSince s s' → delivered out = true → k ∈ s'.sent) ∧
    (∀ (order out : JVal) (s : St W) (w : W), getProp order "entity_id" = .ok b →
      requireEnv cfg = .ok () →
      E.invokeAction s.world (actionParams cfg order) = (.ok out, w) →
      delivered out = true → k ∈ (runForward E cfg (.ok order) s).2.sent) ∧
    (pollOnce envAccepts101 sampleCfg (.ok [orderWith (.num "101"), orderWith (.str "101")])
        (boot (fileListing [.num "101"]) ()) = (.ok [], boot (fileListing [.num "101"]) ()) ∧
      pollOnce envAccepts101 sampleCfg (.ok [orderWith (.num "101"), orderWith (.str "101")])
        (boot (fileListing [.str "101"]) ()) = (.ok [], boot (fileListing [.str "101"]) ()) ∧
      pollOnce envAcceptsAll sampleCfg (.ok [orderWith (.num "1e+21"), orderWith (.str "1.5")])
        (boot (fileListing [.str "1e+21", .num "1.5"]) ()) =
        (.ok [], boot (fileListing [.str "1e+21", .num "1.5"]) ()) ∧
      (pollOnce envAcceptsAll sampleCfg (.ok [orderWith (.num "1e+21")])
        (boot (fileListing [.str "1000000000000000000000"]) ())).2.calls =
        [(orderWith (.num "1e+21"), .ok (acceptedOut (.num "1e+21")))]) := by
  have hidOf : ∀ (order v : JVal), toStr v = .ok k → getProp order "entity_id" = .ok v →
      entityId order = .ok k := by
    intro order v hv hg
    unfold entityId
    rw [hg]
    exact hv
  refine ⟨?_, ?_, ?_, ?_, rfl, rfl, rfl, rfl⟩
  · intro order s hg
    have hid := hidOf order a ha hg
    constructor
    · intro hm
      unfold pollBody
      simp [hid, hm]
    · intro hm
      rcases pollBody_cases E cfg order s with ⟨e, hid', _⟩ | ⟨id, hid', hm', _⟩ |
        ⟨id, e, w, _, _, hinv, hbd⟩ | ⟨id, out, w, _, _, hinv, _, hbd⟩ |
        ⟨id, out, w, w2, _, _, hinv, _, _, hbd⟩ |
        ⟨id, out, w, msg, left, w2, _, _, hinv, _, _, hbd⟩
      · rw [hid] at hid'; cases hid'
      · rw [hid] at hid'; cases hid'; exact absurd hm' hm
      · rw [hbd, hinv]; rfl
      · rw [hbd, hinv]; rfl
      · rw [hbd, hinv]
      · rw [hbd, hinv]
  · intro kvs xs hl hmem hall
    obtain ⟨strs, hs, hk⟩ := mapStr_mem xs b k hb hmem hall
    have hload : loadSentIds (.json (.obj kvs)) = newSet strs := by
      simp [loadSentIds, loadSentIdsTry, getProp, isNullish, field, hl, hs]
    rw [hload]
    exact (mem_newSet strs k).mpr hk
  · intro page order out s s' r hg hrun hc hd
    obtain ⟨new, f⟩ := pollOnce_facts E cfg page s s' r hrun
    rw [callsSince_eq s s' new f.calls_eq] at hc
    exact (f.sent_iff k).mpr (Or.inr ⟨order, out, hc, hd, hidOf order b hb hg⟩)
  · intro order out s w hg henv hinv hd
    rw [runForward_state]
    have hid := hidOf order b hb hg
    have h3 := (saveSentIds_sent E (setAdd s.sent k)
      { sent := setAdd s.sent k, file := s.file, world := w,
        calls := s.calls ++ [(order, .ok out)] }).1
    have hne : (runForwardTry E cfg (.ok order) s).2.sent = setAdd s.sent k := by
      simp only [runForwardTry, henv, hinv, hd, hid, ↓reduceIte]
      rcases hs : saveSentIds E (setAdd s.sent k)
        { sent := setAdd s.sent k, file := s.file, world := w,
          calls := s.calls ++ [(order, .ok out)] } with ⟨rs, s3⟩
      rw [hs] at h3
      cases rs with
      | error e => exact h3
      | ok u =>
        simp only
        split <;> exact h3
    rw [hne]
    exact (mem_setAdd _ _ _).mpr (Or.inr rfl)

/-! ## The forward action -/

theorem main_returns {W : Type} (fetch : W → JVal → JVal → FetchOutcome × W)
    (kvs : List (String × JVal)) (w : W) :
    ∃ out w1, ForwardOrder.main fetch (.obj kvs) w = (.ok out, w1) := by
  have hp : ∀ n, getProp (.obj kvs) n = .ok (field (.obj kvs) n) := by
    intro n
    simp [getProp, isNullish]
  simp only [ForwardOrder.main, hp]
  split
  · exact ⟨_, _, rfl⟩
  · split
    · exact ⟨_, _, rfl⟩
    · split <;> exact ⟨_, _, rfl⟩

theorem actionEnv_returns {W : Type} (fetch : W → JVal → JVal → FetchOutcome × W)
    (writeFile : W → FileState → JVal → WriteOutcome × W) (cfg : Config) :
    ForwardReturns (actionEnv fetch writeFile) cfg := by
  intro w order
  exact main_returns fetch _ w

/-- C10. For a params object whose `order` is an object and whose `TARGET_URL`
is truthy, `main` returns a value: statusCode 200 with `body.ok` true exactly
when the response is `ok`, statusCode 502 with `body.ok` false otherwise, the
same whatever `res.json()` gave; when the request throws, statusCode 502 with
`body.ok` false and the error text `Target unreachable: ` followed by the
message.  For an `order` that is falsy or not an object, or a falsy
`TARGET_URL`, it returns statusCode 400 with `body.ok` false whatever the
network is, and leaves the world untouched. -/
theorem forward_main_outcome {W : Type} (fetch : W → JVal → JVal → FetchOutcome × W)
    (kvs : List (String × JVal)) (w : W) :
    ((truthy (field (.obj kvs) "order") = true ∧
        typeofObject (field (.obj kvs) "order") = true ∧
        truthy (field (.obj kvs) "TARGET_URL") = true) →
      (∃ out w1, ForwardOrder.main fetch (.obj kvs) w = (.ok out, w1)) ∧
      (∀ res w1, fetch w (field (.obj kvs) "TARGET_URL")
          (ForwardOrder.forwardPayload (field (.obj kvs) "order")) = (.resolved res, w1) →
        ∃ out, ForwardOrder.main fetch (.obj kvs) w = (.ok out, w1) ∧
          field out "statusCode" = .num (if res.ok then "200" else "502") ∧
          field (field out "body") "ok" = .bool res.ok ∧
          (delivered out = true ↔ res.ok = true) ∧
          field (field out "body") "target_status" = res.status) ∧
      (∀ message w1, fetch w (field (.obj kvs) "TARGET_URL")
          (ForwardOrder.forwardPayload (field (.obj kvs) "order")) = (.rejected message, w1) →
        ∃ out, ForwardOrder.main fetch (.obj kvs) w = (.ok out, w1) ∧
          field out "statusCode" = .num "502" ∧
          field (field out "body") "ok" = .bool false ∧
          field (field out "body") "error" = .str ("Target unreachable: " ++ message))) ∧
    ((truthy (field (.obj kvs) "order") = false ∨
        typeofObject (field (.obj kvs) "order") = false ∨
        truthy (field (.obj kvs) "TARGET_URL") = false) →
      ∃ out, (∀ fetch' : W → JVal → JVal → FetchOutcome × W,
          ForwardOrder.main fetch' (.obj kvs) w = (.ok out, w)) ∧
        field out "statusCode" = .num "400" ∧
        field (field out "body") "ok" = .bool false) := by
  have hp : ∀ n, getProp (.obj kvs) n = .ok (field (.obj kvs) n) := by
    intro n
    simp [getProp, isNullish]
  constructor
  · rintro ⟨ho, hobj, hu⟩
    have hres : ∀ res w1, fetch w (field (.obj kvs) "TARGET_URL")
        (ForwardOrder.forwardPayload (field (.obj kvs) "order")) = (.resolved res, w1) →
        ∃ out, ForwardOrder.main fetch (.obj kvs) w = (.ok out, w1) ∧
          field out "statusCode" = .num (if res.ok then "200" else "502") ∧
          field (field out "body") "ok" = .bool res.ok ∧
          (delivered out = true ↔ res.ok = true) ∧
          field (field out "body") "target_status" = res.status := by
      intro res w1 hf
      refine ⟨_, by simp only [ForwardOrder.main, hp, ho, hobj, hu, hf]; rfl, ?_, ?_, ?_, ?_⟩
      · simp [field, lookup]
      · simp [field, lookup]
      · cases hok : res.ok <;> simp [delivered, optProp, isNullish, field, lookup, is200]
      · simp [field, lookup]
    have hrej : ∀ message w1, fetch w (field (.obj kvs) "TARGET_URL")
        (ForwardOrder.forwardPayload (field (.obj kvs) "order")) = (.rejected message, w1) →
        ∃ out, ForwardOrder.main fetch (.obj kvs) w = (.ok out, w1) ∧
          field out "statusCode" = .num "502" ∧
          field (field out "body") "ok" = .bool false ∧
          field (field out "body") "error" = .str ("Target unreachable: " ++ message) := by
      intro message w1 hf
      refine ⟨_, by simp only [ForwardOrder.main, hp, ho, hobj, hu, hf]; rfl, ?_, ?_, ?_⟩ <;>
        simp [field, lookup]
    refine ⟨?_, hres, hrej⟩
    rcases hf : fetch w (field (.obj kvs) "TARGET_URL")
        (ForwardOrder.forwardPayload (field (.obj kvs) "order")) with ⟨fo, w1⟩
    cases fo with
    | rejected message =>
      obtain ⟨out, h, _⟩ := hrej message w1 hf
      exact ⟨out, w1, h⟩
    | resolved res =>
      obtain ⟨out, h, _⟩ := hres res w1 hf
      exact ⟨out, w1, h⟩
  · intro hbad
    by_cases h1 : truthy (field (.obj kvs) "order") = true ∧
        typeofObject (field (.obj kvs) "order") = true
    · have hu : truthy (field (.obj kvs) "TARGET_URL") = false := by
        rcases hbad with h | h | h
        · rw [h1.1] at h; cases h
        · rw [h1.2] at h; cases h
        · exact h
      refine ⟨_, fun fetch' => by
        simp only [ForwardOrder.main, hp, h1.1, h1.2, hu]; rfl, ?_, ?_⟩ <;>
        simp [field, lookup]
    · have hcond : (!truthy (field (.obj kvs) "order") ||
          !typeofObject (field (.obj kvs) "order")) = true := by
        cases ht : truthy (field (.obj kvs) "order") <;>
          cases hy : typeofObject (field (.obj kvs) "order") <;> simp_all
      refine ⟨_, fun fetch' => by
        simp only [ForwardOrder.main, hp, hcond]; rfl, ?_, ?_⟩ <;>
        simp [field, lookup]

/-! ## The statements at sample inputs -/

theorem pollOnce_twice_idempotent_witness :
    callsSince (pollOnce envAcceptsAll sampleCfg (.ok sampleOrders) (boot .missing ())).2
        (pollOnce envAcceptsAll sampleCfg (.ok sampleOrders)
          (pollOnce envAcceptsAll sampleCfg (.ok sampleOrders) (boot .missing ())).2).2 = [] ∧
      (pollOnce envAcceptsAll sampleCfg (.ok sampleOrders)
        (pollOnce envAcceptsAll sampleCfg (.ok sampleOrders) (boot .missing ())).2).1 = .ok [] :=
  (pollOnce_twice_idempotent envAcceptsAll sampleCfg sampleOrders (boot .missing ())
    _ _ _ _ rfl rfl).2 ⟨_, rfl⟩ (by
      intro c hc
      have hc : c ∈ [(orderWith (.num "101"), Except.ok (acceptedOut (.num "101"))),
          (orderWith (.num "102"), Except.ok (acceptedOut (.num "102")))] := hc
      rcases List.mem_cons.mp hc with rfl | hc
      · exact ⟨_, rfl, rfl⟩
      · rw [List.mem_singleton] at hc
        subst hc
        exact ⟨_, rfl, rfl⟩)

theorem pollOnce_marks_exactly_delivered_witness :
    "101" ∈ (pollOnce envAccepts101 sampleCfg (.ok sampleOrders) (boot .missing ())).2.sent ∧
      "102" ∉ (pollOnce envAccepts101 sampleCfg (.ok sampleOrders) (boot .missing ())).2.sent :=
  ⟨((pollOnce_marks_exactly_delivered envAccepts101 sampleCfg sampleOrders (boot .missing ())
      _ _ rfl).1 "101").mpr (Or.inr ⟨orderWith (.num "101"), acceptedOut (.num "101"),
        List.mem_cons_self _ _, rfl, rfl⟩),
    (pollOnce_marks_exactly_delivered envAccepts101 sampleCfg sampleOrders (boot .missing ())
      _ _ rfl).2.1 "102" (by decide) (by
        intro o out hmem hid
        have hmem : (o, Except.ok out) ∈
            [(orderWith (.num "101"), Except.ok (acceptedOut (.num "101"))),
              (orderWith (.num "102"), (envAccepts101.invokeAction ()
                (actionParams sampleCfg (orderWith (.num "102")))).1)] := hmem
        rcases List.mem_cons.mp hmem with h | h
        · obtain ⟨rfl, _⟩ := Prod.mk.inj h
          exact absurd (Except.ok.inj
            (hid : (Except.ok "101" : Except String String) = .ok "102")) (by decide)
        · rw [List.mem_singleton] at h
          obtain ⟨_, h2⟩ := Prod.mk.inj h
          cases h2
          rfl)⟩

/-- On a full disk, with a target that accepts every order, the forward of
order 101 is delivered and the write then throws: the poll cycle fails, returns
no outcome list, and order 102 is never forwarded. -/
theorem pollOnce_write_failure_counterexample :
    (pollOnce envDiskFull sampleCfg (.ok sampleOrders) (boot .missing ())).2.calls =
        [(orderWith (.num "101"), .ok (acceptedOut (.num "101")))] ∧
      delivered (acceptedOut (.num "101")) = true ∧
      (pollOnce envDiskFull sampleCfg (.ok sampleOrders) (boot .missing ())).1 =
        .error "ENOSPC: no space left on device, write" ∧
      ¬ ∃ res, (pollOnce envDiskFull sampleCfg (.ok sampleOrders) (boot .missing ())).1 =
        .ok res :=
  ⟨rfl, rfl, rfl, fun ⟨_, h⟩ => by
    have h' : (Except.error "ENOSPC: no space left on device, write" :
        Except String (List JVal)) = .ok _ := h
    cases h'⟩

theorem pollOnce_write_failure_propagates_witness :
    pollOnce envDiskFull sampleCfg (.ok ([] ++ orderWith (.num "101") :: [orderWith (.num "102")]))
        (boot .missing ()) =
      (.error "ENOSPC: no space left on device, write",
        { sent := setAdd [] "101", file := .garbage, world := (),
          calls := [] ++ [(orderWith (.num "101"), .ok (acceptedOut (.num "101")))] }) :=
  (pollOnce_write_failure_propagates envDiskFull sampleCfg [] [orderWith (.num "102")]
    (orderWith (.num "101")) (boot .missing ()) (boot .missing ()) [] "101"
    (acceptedOut (.num "101")) () () "ENOSPC: no space left on device, write" .garbage
    rfl rfl rfl (by decide) rfl rfl rfl).1

theorem pollOnce_partial_batch_witness :
    (pollOnce envDownFor3 sampleCfg (.ok fiveOrders) (boot .missing ())).1.toOption.map
        List.length = some 5 ∧
      pollOnce envDownFor3 sampleCfg
          (.ok (fiveOrders.take 2 ++ orderWith (.num "3") :: fiveOrders.drop 3))
          (boot .missing ()) =
        pollLoop envDownFor3 sampleCfg (fiveOrders.drop 3)
          (afterCall
            { sent := ["1", "2"], file := .json (sentPayload ["1", "2"]), world := (),
              calls := [(orderWith (.num "1"), .ok (acceptedOut (.num "1"))),
                (orderWith (.num "2"), .ok (acceptedOut (.num "2")))] }
            () (orderWith (.num "3")) (.ok unreachableOut))
          ([resultOf (acceptedOut (.num "1")), resultOf (acceptedOut (.num "2"))] ++
            [resultOf unreachableOut]) :=
  ⟨rfl, (pollOnce_partial_batch envDownFor3 sampleCfg (fiveOrders.take 2)
    (fiveOrders.drop 3) (orderWith (.num "3")) (boot .missing ())
    { sent := ["1", "2"], file := .json (sentPayload ["1", "2"]), world := (),
      calls := [(orderWith (.num "1"), .ok (acceptedOut (.num "1"))),
        (orderWith (.num "2"), .ok (acceptedOut (.num "2")))] }
    [resultOf (acceptedOut (.num "1")), resultOf (acceptedOut (.num "2"))] "3"
    unreachableOut () rfl rfl rfl (by decide) rfl rfl).1⟩

theorem ledger_survives_restart_witness :
    loadSentIds (saveSentIds envAccepts101 ["101", "7"] (boot .missing ())).2.file =
        ["101", "7"] ∧
      (boot (pollOnce envAccepts101 sampleCfg (.ok sampleOrders) (boot .missing ())).2.file ()
        : St Unit).sent =
        (pollOnce envAccepts101 sampleCfg (.ok sampleOrders) (boot .missing ())).2.sent :=
  ⟨((ledger_survives_restart envAccepts101 sampleCfg).1 ["101", "7"] (boot .missing ())
      _ rfl).2 (by decide),
    ((ledger_survives_restart envAccepts101 sampleCfg).2.2.2 (fun w _ _ => ⟨w, rfl⟩)
      (boot .missing ()) () sampleOrders _ _ _ _
      ((ledger_survives_restart envAccepts101 sampleCfg).2.2.1 .missing ()) rfl rfl).1⟩

theorem loadSentIds_corrupt_is_empty_witness :
    loadSentIds .missing = [] ∧ loadSentIds .garbage = [] ∧
      loadSentIds (.json .null) = [] ∧ loadSentIds (.json (.num "5")) = [] ∧
      loadSentIds (.json (.arr [.str "101"])) = [] ∧
      loadSentIds (.json (.obj [("sent_order_ids", .str "101")])) = [] :=
  ⟨(loadSentIds_corrupt_is_empty .missing).2 (Or.inl rfl),
    (loadSentIds_corrupt_is_empty .garbage).2 (Or.inr (Or.inl rfl)),
    (loadSentIds_corrupt_is_empty (.json .null)).2
      (Or.inr (Or.inr ⟨_, rfl, fun ⟨_, _, h, _⟩ => by cases h⟩)),
    (loadSentIds_corrupt_is_empty (.json (.num "5"))).2
      (Or.inr (Or.inr ⟨_, rfl, fun ⟨_, _, h, _⟩ => by cases h⟩)),
    (loadSentIds_corrupt_is_empty (.json (.arr [.str "101"]))).2
      (Or.inr (Or.inr ⟨_, rfl, fun ⟨_, _, h, _⟩ => by cases h⟩)),
    (loadSentIds_corrupt_is_empty (.json (.obj [("sent_order_ids", .str "101")]))).2
      (Or.inr (Or.inr ⟨_, rfl, fun ⟨_, _, h, hl⟩ => by
        cases h
        have hl' : some (JVal.str "101") = some (JVal.arr _) := hl
        cases hl'⟩))⟩

theorem ledger_monotone_except_reset_witness :
    "7" ∈ ((Op.poll (.ok sampleOrders)).run envAccepts101 sampleCfg
        (boot (fileListing [.num "7"]) ())).sent ∧
      "7" ∈ ((Op.forward (.ok (orderWith (.num "101")))).run envAccepts101 sampleCfg
        (boot (fileListing [.num "7"]) ())).sent ∧
      (Op.reset.run envAccepts101 sampleCfg (boot (fileListing [.num "7"]) ())).sent = [] ∧
      (Op.reset.run envAccepts101 sampleCfg (boot (fileListing [.num "7"]) ())).file =
        .json (sentPayload []) :=
  ⟨(ledger_monotone_except_reset envAccepts101 sampleCfg (.poll (.ok sampleOrders))
      (boot (fileListing [.num "7"]) ())).1 rfl "7" (by decide),
    (ledger_monotone_except_reset envAccepts101 sampleCfg
      (.forward (.ok (orderWith (.num "101")))) (boot (fileListing [.num "7"]) ())).1 rfl "7"
      (by decide),
    (ledger_monotone_except_reset envAccepts101 sampleCfg .reset
      (boot (fileListing [.num "7"]) ())).2.1,
    ((ledger_monotone_except_reset envAccepts101 sampleCfg .reset
      (boot (fileListing [.num "7"]) ())).2.2 () rfl).1⟩

theorem canonical_identifier_membership_witness :
    toStr (.num "101") = .ok "101" ∧ toStr (.str "101") = .ok "101" ∧
      "1e+21" ∈ loadSentIds (fileListing [.num "1e+21"]) ∧
      pollBody envAccepts101 sampleCfg (orderWith (.str "1e+21"))
        (boot (fileListing [.num "1e+21"]) ()) =
        (.ok none, boot (fileListing [.num "1e+21"]) ()) ∧
      "101" ∈ loadSentIds (fileListing [.num "7", .str "101"]) ∧
      pollBody envAccepts101 sampleCfg (orderWith (.num "101"))
        (boot (fileListing [.str "101"]) ()) =
        (.ok none, boot (fileListing [.str "101"]) ()) :=
  ⟨rfl, rfl,
    (canonical_identifier_membership envAccepts101 sampleCfg (.str "1e+21") (.num "1e+21")
      "1e+21" rfl rfl).2.1 _ [.num "1e+21"] rfl (List.mem_cons_self _ _)
      (by
        intro v hv
        rw [List.mem_singleton] at hv
        subst hv
        exact ⟨_, rfl⟩),
    ((canonical_identifier_membership envAccepts101 sampleCfg (.str "1e+21") (.num "1e+21")
      "1e+21" rfl rfl).1 (orderWith (.str "1e+21")) (boot (fileListing [.num "1e+21"]) ())
      rfl).1 (by decide),
    (canonical_identifier_membership envAccepts101 sampleCfg (.num "101") (.str "101") "101"
      rfl rfl).2.1 _ [.num "7", .str "101"] rfl
      (List.mem_cons_of_mem _ (List.mem_cons_self _ _))
      (by
        intro v hv
        rcases List.mem_cons.mp hv with rfl | hv
        · exact ⟨_, rfl⟩
        · rw [List.mem_singleton] at hv
          subst hv
          exact ⟨_, rfl⟩),
    ((canonical_identifier_membership envAccepts101 sampleCfg (.num "101") (.str "101") "101"
      rfl rfl).1 (orderWith (.num "101")) (boot (fileListing [.str "101"]) ()) rfl).1
      (by decide)⟩

theorem pollOnce_outcome_list_witness :
    (pollOnce envAccepts101 sampleCfg
        (.ok [orderWith (.num "101"), orderWith (.str "101"), orderWith (.num "102")])
        (boot .missing ())).1 =
        .ok [resultOf (acceptedOut (.num "101")),
          resultOf (rejectedOut (.num "102"))] ∧
      ([resultOf (acceptedOut (.num "101")),
          resultOf (rejectedOut (.num "102"))] : List JVal).length =
        (callsSince (boot .missing ())
          (pollOnce envAccepts101 sampleCfg
            (.ok [orderWith (.num "101"), orderWith (.str "101"), orderWith (.num "102")])
            (boot .missing ())).2).length :=
  ⟨rfl, ((pollOnce_outcome_list envAccepts101 sampleCfg
    [orderWith (.num "101"), orderWith (.str "101"), orderWith (.num "102")]
    (boot .missing ()) _ _ rfl).1 _ rfl).2.1⟩

theorem forward_main_outcome_witness :
    (∃ out w1, ForwardOrder.main targetAccepts101
        (.obj [("order", orderWith (.num "101")), ("TARGET_URL", .str "http://target/orders")])
        () = (.ok out, w1)) ∧
      ∃ out, (∀ fetch' : Unit → JVal → JVal → FetchOutcome × Unit,
          ForwardOrder.main fetch' (.obj [("order", .str "101")]) () = (.ok out, ())) ∧
        field out "statusCode" = .num "400" ∧ field (field out "body") "ok" = .bool false :=
  ⟨((forward_main_outcome targetAccepts101
      [("order", orderWith (.num "101")), ("TARGET_URL", .str "http://target/orders")] ()).1
      ⟨rfl, rfl, by decide⟩).1,
    (forward_main_outcome targetAccepts101 [("order", .str "101")] ()).2 (Or.inr (Or.inl rfl))⟩
